import Mathlib

/-!
# kuberos: the admission webhook handler of `pkg/plugins/dispatcher.go`

A shallow embedding of `ServeHTTP` and `serveAdmissionReview`.

The handler is ordinary sequential Go code over three library interfaces:
the request (`*http.Request`), the response writer (`http.ResponseWriter`)
and the codec (`codecs.UniversalDeserializer()` on the way in,
`json.Marshal` on the way out).  The embedding keeps the control flow of the
source line by line and makes the interfaces explicit:

* the response writer is a recorder of what the handler hands to it
  (`Header().Set`, `WriteHeader`, `Write`), following `net/http`;
* the deserializer and the marshaller are arguments of the handler, so that
  every general theorem holds for all codecs; `jsonDecode` and `jsonMarshal`
  further down are executable models of the two library functions on JSON
  text, used for the concrete scenarios;
* klog calls and the calls of the injected functions are recorded in a trace,
  which is how "is never invoked" and "is invoked once" are stated;
* a nil-pointer dereference is the outcome `panicked`.

Go strings and byte slices are modelled by `String`.
-/

set_option linter.dupNamespace false

namespace Kuberos

/-! ## Kubernetes API types used by the handler -/

/-- The type `schema.GroupVersion`. -/
structure GroupVersion where
  Group : String := ""
  Version : String := ""
deriving DecidableEq, Repr

/-- The type `schema.GroupVersionKind` (and `metav1.GroupVersionKind`, which
has the same three fields). -/
structure GroupVersionKind where
  Group : String := ""
  Version : String := ""
  Kind : String := ""
deriving DecidableEq, Repr

/-- The type `metav1.GroupVersionResource`. -/
structure GroupVersionResource where
  Group : String := ""
  Version : String := ""
  Resource : String := ""
deriving DecidableEq, Repr

/-- The method `GroupVersion.WithKind`. -/
def GroupVersion.WithKind (gv : GroupVersion) (kind : String) : GroupVersionKind :=
  { Group := gv.Group, Version := gv.Version, Kind := kind }

/-- The method `GroupVersion.String`: `group/version`, or the bare version
for the core group. -/
def GroupVersion.str (gv : GroupVersion) : String :=
  if gv.Group.length > 0 then gv.Group ++ "/" ++ gv.Version else gv.Version

/-- The method `GroupVersionKind.GroupVersion`. -/
def GroupVersionKind.GroupVersion (gvk : GroupVersionKind) : GroupVersion :=
  { Group := gvk.Group, Version := gvk.Version }

/-- The method `GroupVersionKind.Empty`. -/
def GroupVersionKind.Empty (gvk : GroupVersionKind) : Bool :=
  gvk.Group.length == 0 && gvk.Version.length == 0 && gvk.Kind.length == 0

/-- The method `GroupVersionKind.String`, which is what `%v` prints. -/
def GroupVersionKind.str (gvk : GroupVersionKind) : String :=
  gvk.Group ++ "/" ++ gvk.Version ++ ", Kind=" ++ gvk.Kind

/-- The method `GroupVersionKind.ToAPIVersionAndKind`. -/
def GroupVersionKind.ToAPIVersionAndKind (gvk : GroupVersionKind) : String × String :=
  if gvk.Empty then ("", "") else (gvk.GroupVersion.str, gvk.Kind)

/-- The variable `admissionv1.SchemeGroupVersion`. -/
def SchemeGroupVersion : GroupVersion :=
  { Group := "admission.k8s.io", Version := "v1" }

/-- The type `metav1.TypeMeta`. -/
structure TypeMeta where
  Kind : String := ""
  APIVersion : String := ""
deriving DecidableEq, Repr

/-- The type `metav1.ListMeta`. -/
structure ListMeta where
  SelfLink : String := ""
  ResourceVersion : String := ""
  Continue : String := ""
  RemainingItemCount : Option Int := none
deriving DecidableEq, Repr

/-- The type `metav1.StatusCause`; `Type_` is the Go field `Type`. -/
structure StatusCause where
  Type_ : String := ""
  Message : String := ""
  Field : String := ""
deriving DecidableEq, Repr

/-- The type `metav1.StatusDetails`. -/
structure StatusDetails where
  Name : String := ""
  Group : String := ""
  Kind : String := ""
  UID : String := ""
  Causes : List StatusCause := []
  RetryAfterSeconds : Int := 0
deriving DecidableEq, Repr

/-- The type `metav1.Status`. -/
structure Status where
  TypeMeta : TypeMeta := {}
  ListMeta : ListMeta := {}
  Status : String := ""
  Message : String := ""
  Reason : String := ""
  Details : Option StatusDetails := none
  Code : Int := 0
deriving DecidableEq, Repr

/-- The type `admissionv1.AdmissionResponse`.  `Patch` is a byte slice, the
audit annotations are a string map (kept as an association list). -/
structure AdmissionResponse where
  UID : String := ""
  Allowed : Bool := false
  Result : Option Status := none
  Patch : List UInt8 := []
  PatchType : Option String := none
  AuditAnnotations : List (String × String) := []
  Warnings : List String := []
deriving DecidableEq, Repr

/-- The type `authenticationv1.UserInfo`. -/
structure UserInfo where
  Username : String := ""
  UID : String := ""
  Groups : List String := []
  Extra : List (String × List String) := []
deriving DecidableEq, Repr

/-- The type `admissionv1.AdmissionRequest`.  The three `runtime.RawExtension`
fields hold the raw JSON text of the embedded object, `none` when absent. -/
structure AdmissionRequest where
  UID : String := ""
  Kind : GroupVersionKind := {}
  Resource : GroupVersionResource := {}
  SubResource : String := ""
  RequestKind : Option GroupVersionKind := none
  RequestResource : Option GroupVersionResource := none
  RequestSubResource : String := ""
  Name : String := ""
  Namespace : String := ""
  Operation : String := ""
  UserInfo : UserInfo := {}
  Object : Option String := none
  OldObject : Option String := none
  DryRun : Option Bool := none
  Options : Option String := none
deriving DecidableEq, Repr

/-- The type `admissionv1.AdmissionReview`: the envelope. -/
structure AdmissionReview where
  TypeMeta : TypeMeta := {}
  Request : Option AdmissionRequest := none
  Response : Option AdmissionResponse := none
deriving DecidableEq, Repr

/-- The method `SetGroupVersionKind` of `TypeMeta`, promoted to the
envelope. -/
def AdmissionReview.SetGroupVersionKind (obj : AdmissionReview) (gvk : GroupVersionKind) :
    AdmissionReview :=
  { obj with TypeMeta :=
      { APIVersion := gvk.ToAPIVersionAndKind.1, Kind := gvk.ToAPIVersionAndKind.2 } }

deriving instance DecidableEq for Except

/-- A decoded `runtime.Object`: either the concrete `*admissionv1.AdmissionReview`
or a value of another registered Go type, of which only the type name is kept. -/
inductive Object where
  | admissionReview (ar : AdmissionReview)
  | other (goType : String)
deriving DecidableEq, Repr

/-! ## net/http -/

/-- The type `http.Header`: header names with their values. -/
abbrev Header := List (String × List String)

/-- The method `Header.Get`: the first value of the key, the empty string
when there is none.  The keys of a received request are in canonical form and
so are the literal keys this program passes. -/
def Header.Get (h : Header) (key : String) : String :=
  match h.lookup key with
  | some (v :: _) => v
  | _ => ""

/-- The method `Header.Set`: the key now has exactly this one value. -/
def Header.Set (h : Header) (key value : String) : Header :=
  (key, [value]) :: h.filter (fun kv => kv.1 != key)

/-- The request as far as the handler reads it: the headers, and the body,
which is `none` for a nil `r.Body` and otherwise what `ioutil.ReadAll`
returns (the data, or an error). -/
structure Request where
  Header : Header := []
  Body : Option (Except String String) := none

/-- The response writer, as a recorder: the header map, the status once the
header is written (with the headers as they were then), and the bytes handed
to `Write`.  `writeErr` is the error `Write` reports, if any. -/
structure ResponseWriter where
  header : Header := []
  status : Option Nat := none
  sent : Header := []
  body : String := ""
  writeErr : Option String := none
deriving DecidableEq, Repr

/-- The method `WriteHeader`: the first call fixes the status and the headers,
later calls are ignored. -/
def ResponseWriter.WriteHeader (w : ResponseWriter) (code : Nat) : ResponseWriter :=
  match w.status with
  | some _ => w
  | none => { w with status := some code, sent := w.header }

/-- The method `Write`: writes the header with status 200 when it is not
written yet, then the data. -/
def ResponseWriter.Write (w : ResponseWriter) (data : String) :
    ResponseWriter × Option String :=
  let w1 := w.WriteHeader 200
  ({ w1 with body := w1.body ++ data }, w.writeErr)

/-- The status the client receives: the server answers 200 when the handler
returns without writing a header. -/
def ResponseWriter.clientStatus (w : ResponseWriter) : Nat :=
  w.status.getD 200

/-- The writer the server hands to a handler: nothing set, nothing written. -/
def newResponseWriter (writeErr : Option String) : ResponseWriter :=
  { writeErr := writeErr }

def StatusBadRequest : Nat := 400
def StatusUnsupportedMediaType : Nat := 415
def StatusInternalServerError : Nat := 500

/-- The function `http.Error`: a plain-text reply with the given status; the
message goes out through `fmt.Fprintln`, that is, followed by a newline. -/
def Error (w : ResponseWriter) (error : String) (code : Nat) : ResponseWriter :=
  let h := (w.header.Set "Content-Type" "text/plain; charset=utf-8").Set
    "X-Content-Type-Options" "nosniff"
  let w1 := ({ w with header := h }).WriteHeader code
  (w1.Write (error ++ "\n")).1

/-! ## The handler -/

/-- What the handler does besides writing the response, in order. -/
inductive Event where
  /-- One of `klog.Warning`, `klog.Error`, `klog.Errorf`, `klog.V(2).Info`. -/
  | log (severity : String) (msg : String)
  /-- The call `klog.V(2).Info` of line 92, with the object it prints. -/
  | logResponse (obj : AdmissionReview)
  /-- A call of `deserializer.Decode`. -/
  | decode (body : String)
  /-- A call of the injected decision function. -/
  | admitted (ar : AdmissionReview)
  /-- A call of `json.Marshal`. -/
  | marshal (obj : AdmissionReview)
deriving DecidableEq, Repr

/-- The result of one run of the handler. -/
structure Outcome where
  w : ResponseWriter
  trace : List Event
  panicked : Bool
deriving DecidableEq, Repr

/-- The bodies `deserializer.Decode` was called on. -/
def decodeCalls (t : List Event) : List String :=
  t.filterMap (fun e => match e with
    | .decode body => some body
    | _ => none)

/-- The reviews the decision function was called on. -/
def admitCalls (t : List Event) : List AdmissionReview :=
  t.filterMap (fun e => match e with
    | .admitted ar => some ar
    | _ => none)

/-- The envelopes `json.Marshal` was called on. -/
def marshalCalls (t : List Event) : List AdmissionReview :=
  t.filterMap (fun e => match e with
    | .marshal obj => some obj
    | _ => none)

/-- The type of `deserializer.Decode(body, nil, nil)`. -/
abbrev Decoder := String → Except String (Object × GroupVersionKind)

/-- The type of `json.Marshal` at the envelope. -/
abbrev Marshaller := AdmissionReview → Except String String

/-- Lines 46 to 51: the body is what `ioutil.ReadAll` returns, and stays nil
(the empty byte slice) when `r.Body` is nil or the read fails. -/
def readBody (r : Request) : String :=
  match r.Body with
  | some (.ok data) => data
  | _ => ""

/-- The function `serveAdmissionReview`.  `admitFunc` is the parameter `admit`
of the source; it returns a pointer, `none` being nil. -/
def serveAdmissionReview (Decode : Decoder) (Marshal : Marshaller)
    (w : ResponseWriter) (r : Request)
    (admitFunc : AdmissionReview → Option AdmissionResponse) : Outcome :=
  let body := readBody r
  -- verify the content type is accurate
  let contentType := r.Header.Get "Content-Type"
  if contentType ≠ "application/json" then
    let message := "contentType=" ++ contentType ++ ", expect application/json"
    { w := Error w message StatusUnsupportedMediaType
      trace := [.log "warning" message]
      panicked := false }
  else
    let t0 : List Event := [.log "info" ("handling request: " ++ body), .decode body]
    match Decode body with
    | .error err =>
      let msg := "Request could not be decoded: " ++ err
      { w := Error w msg StatusBadRequest
        trace := t0 ++ [.log "error" msg]
        panicked := false }
    | .ok (obj, gvk) =>
      if gvk ≠ SchemeGroupVersion.WithKind "AdmissionReview" then
        let msg := "Unsupported group version kind: " ++ gvk.str
        { w := Error w msg StatusBadRequest
          trace := t0 ++ [.log "error" msg]
          panicked := false }
      else
        match obj with
        | .other goType =>
          { w := w
            trace := t0 ++ [.log "error" ("Expected v1.AdmissionReview but got: " ++ goType)]
            panicked := false }
        | .admissionReview requestedAdmissionReview =>
          let responseAdmissionReview : AdmissionReview :=
            AdmissionReview.SetGroupVersionKind {} gvk
          let t1 := t0 ++ [.admitted requestedAdmissionReview]
          match admitFunc requestedAdmissionReview, requestedAdmissionReview.Request with
          | some response, some request =>
            let responseObj : AdmissionReview :=
              { responseAdmissionReview with
                Response := some { response with UID := request.UID } }
            let t2 := t1 ++ [.logResponse responseObj, .marshal responseObj]
            match Marshal responseObj with
            | .error err =>
              { w := Error w err StatusInternalServerError
                trace := t2 ++ [.log "error" err]
                panicked := false }
            | .ok respBytes =>
              let w1 := { w with header := w.header.Set "Content-Type" "application/json" }
              match w1.Write respBytes with
              | (w2, some err) => { w := w2, trace := t2 ++ [.log "error" err], panicked := false }
              | (w2, none) => { w := w2, trace := t2, panicked := false }
          | _, _ =>
            -- line 89 dereferences a nil `Response` or a nil `Request`
            { w := w, trace := t1, panicked := true }

/-- The decision function `ServeHTTP` passes: the closure of lines 20 to 27. -/
def allowAll (_ar : AdmissionReview) : Option AdmissionResponse :=
  let reviewResponse : AdmissionResponse := {}
  let reviewResponse := { reviewResponse with Allowed := true }
  let reviewResponse :=
    { reviewResponse with Result := some { Message := "this webhook allows all requests" } }
  some reviewResponse

/-- The function `ServeHTTP`. -/
def ServeHTTP (Decode : Decoder) (Marshal : Marshaller) (w : ResponseWriter) (r : Request) :
    Outcome :=
  serveAdmissionReview Decode Marshal w r allowAll

/-! ## encoding/json on the way out

An executable model of `json.Marshal` at the envelope type, following the
`json` struct tags of the API types: the fields in declaration order, a field
tagged `omitempty` left out when it is an empty string, false, zero, a nil
pointer or an empty slice or map (a struct is never empty, so the `metadata`
of a status is always written). -/

/-- A hexadecimal digit, lower case, as `encoding/json` writes it. -/
def hexDigit (n : Nat) : Char :=
  if n < 10 then Char.ofNat (48 + n) else Char.ofNat (87 + n)

/-- The escape of one character inside a JSON string: `encoding/json` with
HTML escaping on, as `json.Marshal` has it.  The short escapes are those of
quote, backslash, newline, carriage return and tab (Go before 1.22; later
versions also shorten backspace and form feed); other control characters and
`<`, `>`, `&`, U+2028, U+2029 are written as `\uXXXX`. -/
def escapeChar (c : Char) : List Char :=
  if c = '"' then ['\\', '"']
  else if c = '\\' then ['\\', '\\']
  else if c = '\n' then ['\\', 'n']
  else if c = '\r' then ['\\', 'r']
  else if c = '\t' then ['\\', 't']
  else if c.toNat < 32 ∨ c = '<' ∨ c = '>' ∨ c = '&' then
    ['\\', 'u', '0', '0', hexDigit (c.toNat / 16), hexDigit (c.toNat % 16)]
  else if c.toNat = 0x2028 then ['\\', 'u', '2', '0', '2', '8']
  else if c.toNat = 0x2029 then ['\\', 'u', '2', '0', '2', '9']
  else [c]

/-- A Go string as a JSON string literal. -/
def encodeString (s : String) : String :=
  "\"" ++ String.mk (s.toList.flatMap escapeChar) ++ "\""

/-- A Go integer as a JSON number. -/
def encodeInt (i : Int) : String :=
  if i < 0 then "-" ++ toString i.natAbs else toString i.natAbs

/-- The members of a JSON object: the ones that are present, separated by
commas, between braces. -/
def encodeObject (members : List (Option String)) : String :=
  "\x7b" ++ ",".intercalate (members.filterMap id) ++ "\x7d"

/-- A JSON array. -/
def encodeArray (elems : List String) : String :=
  "[" ++ ",".intercalate elems ++ "]"

/-- A member that is always written. -/
def member (name : String) (value : String) : Option String :=
  some (encodeString name ++ ":" ++ value)

/-- A string member tagged `omitempty`. -/
def memberStr (name : String) (value : String) : Option String :=
  if value = "" then none else member name (encodeString value)

/-- An integer member tagged `omitempty`. -/
def memberInt (name : String) (value : Int) : Option String :=
  if value = 0 then none else member name (encodeInt value)

/-- A pointer member tagged `omitempty`. -/
def memberPtr {α : Type} (name : String) (enc : α → String) (value : Option α) :
    Option String :=
  value.bind (fun v => member name (enc v))

/-- A slice member tagged `omitempty`. -/
def memberList {α : Type} (name : String) (enc : α → String) (value : List α) :
    Option String :=
  if value.isEmpty then none else member name (encodeArray (value.map enc))

/-- Insertion into a list of map entries sorted by key. -/
def insertByKey {α : Type} (kv : String × α) : List (String × α) → List (String × α)
  | [] => [kv]
  | x :: xs => if kv.1 < x.1 then kv :: x :: xs else x :: insertByKey kv xs

/-- A map is written with its keys sorted. -/
def sortByKey {α : Type} (m : List (String × α)) : List (String × α) :=
  m.foldr insertByKey []

/-- A map member tagged `omitempty`. -/
def memberMap {α : Type} (name : String) (enc : α → String) (value : List (String × α)) :
    Option String :=
  if value.isEmpty then none
  else member name
    (encodeObject ((sortByKey value).map (fun kv => member kv.1 (enc kv.2))))

/-- The alphabet of `base64.StdEncoding`. -/
def base64Char (n : Nat) : Char :=
  if n < 26 then Char.ofNat (65 + n)
  else if n < 52 then Char.ofNat (97 + (n - 26))
  else if n < 62 then Char.ofNat (48 + (n - 52))
  else if n = 62 then '+' else '/'

/-- Standard base64 with padding: how `encoding/json` writes a byte slice. -/
def base64 : List UInt8 → List Char
  | [] => []
  | [a] =>
    let n := a.toNat * 65536
    [base64Char (n / 262144), base64Char (n / 4096 % 64), '=', '=']
  | [a, b] =>
    let n := a.toNat * 65536 + b.toNat * 256
    [base64Char (n / 262144), base64Char (n / 4096 % 64), base64Char (n / 64 % 64), '=']
  | a :: b :: c :: rest =>
    let n := a.toNat * 65536 + b.toNat * 256 + c.toNat
    base64Char (n / 262144) :: base64Char (n / 4096 % 64) :: base64Char (n / 64 % 64) ::
      base64Char (n % 64) :: base64 rest

/-- The members of an inlined `TypeMeta`. -/
def TypeMeta.members (t : TypeMeta) : List (Option String) :=
  [memberStr "kind" t.Kind, memberStr "apiVersion" t.APIVersion]

def ListMeta.encode (m : ListMeta) : String :=
  encodeObject
    [memberStr "selfLink" m.SelfLink,
     memberStr "resourceVersion" m.ResourceVersion,
     memberStr "continue" m.Continue,
     memberPtr "remainingItemCount" encodeInt m.RemainingItemCount]

def StatusCause.encode (c : StatusCause) : String :=
  encodeObject
    [memberStr "reason" c.Type_, memberStr "message" c.Message, memberStr "field" c.Field]

def StatusDetails.encode (d : StatusDetails) : String :=
  encodeObject
    [memberStr "name" d.Name,
     memberStr "group" d.Group,
     memberStr "kind" d.Kind,
     memberStr "uid" d.UID,
     memberList "causes" StatusCause.encode d.Causes,
     memberInt "retryAfterSeconds" d.RetryAfterSeconds]

/-- A `metav1.Status`.  Its `ListMeta` is a struct, which `omitempty` never
leaves out. -/
def Status.encode (s : Kuberos.Status) : String :=
  encodeObject
    (s.TypeMeta.members ++
     [member "metadata" s.ListMeta.encode,
      memberStr "status" s.Status,
      memberStr "message" s.Message,
      memberStr "reason" s.Reason,
      memberPtr "details" StatusDetails.encode s.Details,
      memberInt "code" s.Code])

/-- An `AdmissionResponse`: `uid` and `allowed` carry no `omitempty`. -/
def AdmissionResponse.encode (r : AdmissionResponse) : String :=
  encodeObject
    [member "uid" (encodeString r.UID),
     member "allowed" (if r.Allowed then "true" else "false"),
     memberPtr "status" Status.encode r.Result,
     (if r.Patch.isEmpty then none
      else member "patch" ("\"" ++ String.mk (base64 r.Patch) ++ "\"")),
     memberPtr "patchType" encodeString r.PatchType,
     memberMap "auditAnnotations" encodeString r.AuditAnnotations,
     memberList "warnings" encodeString r.Warnings]

def GroupVersionKind.encode (k : GroupVersionKind) : String :=
  encodeObject
    [member "group" (encodeString k.Group),
     member "version" (encodeString k.Version),
     member "kind" (encodeString k.Kind)]

def GroupVersionResource.encode (k : GroupVersionResource) : String :=
  encodeObject
    [member "group" (encodeString k.Group),
     member "version" (encodeString k.Version),
     member "resource" (encodeString k.Resource)]

def UserInfo.encode (u : UserInfo) : String :=
  encodeObject
    [memberStr "username" u.Username,
     memberStr "uid" u.UID,
     memberList "groups" encodeString u.Groups,
     memberMap "extra" (fun vs => encodeArray (vs.map encodeString)) u.Extra]

/-- A `runtime.RawExtension`: the raw text, `null` when there is none. -/
def encodeRaw (raw : Option String) : String :=
  raw.getD "null"

/-- An `AdmissionRequest`.  The envelope the handler marshals never has one. -/
def AdmissionRequest.encode (r : AdmissionRequest) : String :=
  encodeObject
    [member "uid" (encodeString r.UID),
     member "kind" r.Kind.encode,
     member "resource" r.Resource.encode,
     memberStr "subResource" r.SubResource,
     memberPtr "requestKind" GroupVersionKind.encode r.RequestKind,
     memberPtr "requestResource" GroupVersionResource.encode r.RequestResource,
     memberStr "requestSubResource" r.RequestSubResource,
     memberStr "name" r.Name,
     memberStr "namespace" r.Namespace,
     member "operation" (encodeString r.Operation),
     member "userInfo" r.UserInfo.encode,
     member "object" (encodeRaw r.Object),
     member "oldObject" (encodeRaw r.OldObject),
     memberPtr "dryRun" (fun b => if b then "true" else "false") r.DryRun,
     member "options" (encodeRaw r.Options)]

/-- The envelope. -/
def AdmissionReview.encode (ar : AdmissionReview) : String :=
  encodeObject
    (ar.TypeMeta.members ++
     [memberPtr "request" AdmissionRequest.encode ar.Request,
      memberPtr "response" AdmissionResponse.encode ar.Response])

/-- The function `json.Marshal` at the envelope: it has no failure there. -/
def jsonMarshal : Marshaller :=
  fun obj => .ok obj.encode

/-! ## The deserializer on JSON text

An executable model of `codecs.UniversalDeserializer().Decode` for a body
that is JSON text, with the scheme of `addToScheme`.  JSON text is parsed by
the grammar of `encoding/json`; the group, version and kind are read from the
top-level object; the kind is looked up in the scheme; an `AdmissionReview` is
filled member by member in the order of the text, each member decoded into
the field it names (a later duplicate overwrites, `null` leaves a value field
as it is and resets a pointer, a slice or a map, unknown members are
skipped).  A body whose first character after white space is not an opening
brace is not JSON for the deserializer; it then tries YAML, which is not
modelled: such a body is reported as a decode error, which is what the
library does for every text that is not a YAML mapping. -/

/-- A parsed JSON value, each node with the text it was read from. -/
inductive Json where
  | null
  | bool (b : Bool)
  | num (raw : String)
  | str (raw : String) (s : String)
  | arr (raw : String) (elems : List Json)
  | obj (raw : String) (members : List (String × Json))

/-- The text a value was read from. -/
def Json.raw : Json → String
  | .null => "null"
  | .bool b => if b then "true" else "false"
  | .num r => r
  | .str r _ => r
  | .arr r _ => r
  | .obj r _ => r

/-- JSON white space. -/
def isSpace (c : Char) : Bool :=
  c = ' ' || c = '\t' || c = '\n' || c = '\r'

def skipSpace : List Char → List Char
  | [] => []
  | c :: cs => if isSpace c then skipSpace cs else c :: cs

/-- The text consumed between two positions of the input. -/
def consumed (start rest : List Char) : String :=
  String.mk (start.take (start.length - rest.length))

def hexVal (c : Char) : Option Nat :=
  if '0' ≤ c ∧ c ≤ '9' then some (c.toNat - 48)
  else if 'a' ≤ c ∧ c ≤ 'f' then some (c.toNat - 87)
  else if 'A' ≤ c ∧ c ≤ 'F' then some (c.toNat - 55)
  else none

/-- Four hexadecimal digits. -/
def parseHex4 : List Char → Option (Nat × List Char)
  | a :: b :: c :: d :: rest =>
    match hexVal a, hexVal b, hexVal c, hexVal d with
    | some a, some b, some c, some d => some (((a * 16 + b) * 16 + c) * 16 + d, rest)
    | _, _, _, _ => none
  | _ => none

/-- The rest of a string literal after its opening quote: the decoded string
and the input after the closing quote.  A lone surrogate escape decodes to
U+FFFD, a pair to the character it encodes. -/
def parseStringBody : Nat → List Char → List Char → Option (String × List Char)
  | 0, _, _ => none
  | _ + 1, [], _ => none
  | fuel + 1, c :: rest, acc =>
    if c = '"' then some (String.mk acc.reverse, rest)
    else if c = '\\' then
      match rest with
      | [] => none
      | e :: rest1 =>
        if e = '"' then parseStringBody fuel rest1 ('"' :: acc)
        else if e = '\\' then parseStringBody fuel rest1 ('\\' :: acc)
        else if e = '/' then parseStringBody fuel rest1 ('/' :: acc)
        else if e = 'b' then parseStringBody fuel rest1 (Char.ofNat 8 :: acc)
        else if e = 'f' then parseStringBody fuel rest1 (Char.ofNat 12 :: acc)
        else if e = 'n' then parseStringBody fuel rest1 ('\n' :: acc)
        else if e = 'r' then parseStringBody fuel rest1 ('\r' :: acc)
        else if e = 't' then parseStringBody fuel rest1 ('\t' :: acc)
        else if e = 'u' then
          match parseHex4 rest1 with
          | none => none
          | some (hi, rest2) =>
            if 0xD800 ≤ hi ∧ hi < 0xE000 then
              match rest2 with
              | '\\' :: 'u' :: rest3 =>
                match parseHex4 rest3 with
                | none => none
                | some (lo, rest4) =>
                  if hi < 0xDC00 ∧ 0xDC00 ≤ lo ∧ lo < 0xE000 then
                    parseStringBody fuel rest4
                      (Char.ofNat (0x10000 + (hi - 0xD800) * 1024 + (lo - 0xDC00)) :: acc)
                  else parseStringBody fuel rest2 (Char.ofNat 0xFFFD :: acc)
              | _ => parseStringBody fuel rest2 (Char.ofNat 0xFFFD :: acc)
            else parseStringBody fuel rest2 (Char.ofNat hi :: acc)
        else none
    else if c.toNat < 32 then none
    else parseStringBody fuel rest (c :: acc)

/-- A run of decimal digits. -/
def skipDigits : List Char → List Char
  | [] => []
  | c :: cs => if c.isDigit then skipDigits cs else c :: cs

/-- At least one digit, then the rest. -/
def digits1 (cs : List Char) : Option (List Char) :=
  match cs with
  | c :: rest => if c.isDigit then some (skipDigits rest) else none
  | [] => none

/-- A number literal: the input after it. -/
def parseNumber (cs : List Char) : Option (List Char) :=
  let cs1 := match cs with
    | '-' :: rest => rest
    | _ => cs
  let afterInt : Option (List Char) :=
    match cs1 with
    | '0' :: rest => some rest
    | _ => digits1 cs1
  match afterInt with
  | none => none
  | some cs2 =>
    let afterFrac : Option (List Char) :=
      match cs2 with
      | '.' :: rest => digits1 rest
      | _ => some cs2
    match afterFrac with
    | none => none
    | some cs3 =>
      match cs3 with
      | 'e' :: '+' :: rest => digits1 rest
      | 'e' :: '-' :: rest => digits1 rest
      | 'e' :: rest => digits1 rest
      | 'E' :: '+' :: rest => digits1 rest
      | 'E' :: '-' :: rest => digits1 rest
      | 'E' :: rest => digits1 rest
      | _ => some cs3

mutual
/-- One JSON value, after optional white space. -/
def parseValue : Nat → List Char → Option (Json × List Char)
  | 0, _ => none
  | fuel + 1, cs =>
    let start := skipSpace cs
    match start with
    | [] => none
    | c :: rest =>
      if c = '\x7b' then
        match skipSpace rest with
        | '\x7d' :: rest1 => some (.obj (consumed start rest1) [], rest1)
        | _ =>
          match parseMembers fuel rest with
          | none => none
          | some (ms, rest1) => some (.obj (consumed start rest1) ms, rest1)
      else if c = '[' then
        match skipSpace rest with
        | ']' :: rest1 => some (.arr (consumed start rest1) [], rest1)
        | _ =>
          match parseElements fuel rest with
          | none => none
          | some (es, rest1) => some (.arr (consumed start rest1) es, rest1)
      else if c = '"' then
        match parseStringBody (rest.length + 1) rest [] with
        | none => none
        | some (s, rest1) => some (.str (consumed start rest1) s, rest1)
      else if c = '-' ∨ c.isDigit then
        match parseNumber start with
        | none => none
        | some rest1 => some (.num (consumed start rest1), rest1)
      else
        match start with
        | 't' :: 'r' :: 'u' :: 'e' :: rest1 => some (.bool true, rest1)
        | 'f' :: 'a' :: 'l' :: 's' :: 'e' :: rest1 => some (.bool false, rest1)
        | 'n' :: 'u' :: 'l' :: 'l' :: rest1 => some (.null, rest1)
        | _ => none
/-- The members of an object up to and including the closing brace. -/
def parseMembers : Nat → List Char → Option (List (String × Json) × List Char)
  | 0, _ => none
  | fuel + 1, cs =>
    match skipSpace cs with
    | '"' :: rest =>
      match parseStringBody (rest.length + 1) rest [] with
      | none => none
      | some (key, rest1) =>
        match skipSpace rest1 with
        | ':' :: rest2 =>
          match parseValue fuel rest2 with
          | none => none
          | some (v, rest3) =>
            match skipSpace rest3 with
            | ',' :: rest4 =>
              match parseMembers fuel rest4 with
              | none => none
              | some (ms, rest5) => some ((key, v) :: ms, rest5)
            | '\x7d' :: rest4 => some ([(key, v)], rest4)
            | _ => none
        | _ => none
    | _ => none
/-- The elements of an array up to and including the closing bracket. -/
def parseElements : Nat → List Char → Option (List Json × List Char)
  | 0, _ => none
  | fuel + 1, cs =>
    match parseValue fuel cs with
    | none => none
    | some (v, rest1) =>
      match skipSpace rest1 with
      | ',' :: rest2 =>
        match parseElements fuel rest2 with
        | none => none
        | some (es, rest3) => some (v :: es, rest3)
      | ']' :: rest2 => some ([v], rest2)
      | _ => none
end

/-- A whole JSON text: one value and nothing but white space after it.  Every
step of the parser reads a character at least every other call, so twice the
length of the text is enough fuel. -/
def parseJson (text : String) : Option Json :=
  match parseValue (2 * text.length + 2) text.toList with
  | some (v, rest) => if (skipSpace rest).isEmpty then some v else none
  | none => none

/-- Decoding a JSON value into a Go value that already holds something: the
way `Unmarshal` fills a field. -/
abbrev Dec (α : Type) := α → Json → Except String α

/-- Into a `string`. -/
def decString : Dec String := fun old j =>
  match j with
  | .null => .ok old
  | .str _ s => .ok s
  | _ => .error "json: cannot unmarshal into Go value of type string"

/-- Into a `bool`. -/
def decBool : Dec Bool := fun old j =>
  match j with
  | .null => .ok old
  | .bool b => .ok b
  | _ => .error "json: cannot unmarshal into Go value of type bool"

/-- The value of an integer literal, `none` for a literal with a fraction or
an exponent. -/
def intLiteral (raw : String) : Option Int :=
  match raw.toList with
  | '-' :: ds => if ds.all Char.isDigit ∧ ¬ ds.isEmpty then
      some (- Int.ofNat (ds.foldl (fun n d => 10 * n + (d.toNat - 48)) 0)) else none
  | ds => if ds.all Char.isDigit ∧ ¬ ds.isEmpty then
      some (Int.ofNat (ds.foldl (fun n d => 10 * n + (d.toNat - 48)) 0)) else none

/-- Into a signed integer of the given width. -/
def decInt (bits : Nat) : Dec Int := fun old j =>
  match j with
  | .null => .ok old
  | .num raw =>
    match intLiteral raw with
    | some i =>
      if - (2 : Int) ^ (bits - 1) ≤ i ∧ i < (2 : Int) ^ (bits - 1) then .ok i
      else .error "json: cannot unmarshal number into Go value of integer type"
    | none => .error "json: cannot unmarshal number into Go value of integer type"
  | _ => .error "json: cannot unmarshal into Go value of integer type"

/-- Into a pointer: `null` makes it nil, anything else is decoded into what it
points to, a fresh zero value when it is nil. -/
def decPtr {α : Type} (zero : α) (d : Dec α) : Dec (Option α) := fun old j =>
  match j with
  | .null => .ok none
  | _ => (d (old.getD zero) j).map some

/-- Into a struct, given how one member is stored. -/
def decStruct {α : Type} (field : α → String → Json → Except String α) : Dec α := fun old j =>
  match j with
  | .null => .ok old
  | .obj _ ms => ms.foldlM (fun acc kv => field acc kv.1 kv.2) old
  | _ => .error "json: cannot unmarshal into Go value of struct type"

/-- Into a slice. -/
def decList {α : Type} (zero : α) (d : Dec α) : Dec (List α) := fun _ j =>
  match j with
  | .null => .ok []
  | .arr _ es => es.mapM (d zero)
  | _ => .error "json: cannot unmarshal into Go value of slice type"

/-- Storing one key of a map. -/
def mapSet {α : Type} (m : List (String × α)) (key : String) (v : α) : List (String × α) :=
  m.filter (fun kv => kv.1 != key) ++ [(key, v)]

/-- Into a map with string keys. -/
def decMap {α : Type} (zero : α) (d : Dec α) : Dec (List (String × α)) := fun old j =>
  match j with
  | .null => .ok []
  | .obj _ ms => ms.foldlM (fun acc kv => (d zero kv.2).map (mapSet acc kv.1)) old
  | _ => .error "json: cannot unmarshal into Go value of map type"

/-- Into a `runtime.RawExtension`: the text of the value, unless it is
`null`. -/
def decRaw : Dec (Option String) := fun old j =>
  match j with
  | .null => .ok old
  | _ => .ok (some j.raw)

def base64Val (c : Char) : Option Nat :=
  if 'A' ≤ c ∧ c ≤ 'Z' then some (c.toNat - 65)
  else if 'a' ≤ c ∧ c ≤ 'z' then some (c.toNat - 97 + 26)
  else if '0' ≤ c ∧ c ≤ '9' then some (c.toNat - 48 + 52)
  else if c = '+' then some 62
  else if c = '/' then some 63
  else none

/-- Standard base64 with padding, read in groups of four. -/
def unbase64 : List Char → Option (List UInt8)
  | [] => some []
  | [a, b, '=', '='] =>
    match base64Val a, base64Val b with
    | some a, some b => some [UInt8.ofNat ((a * 64 + b) / 16)]
    | _, _ => none
  | [a, b, c, '='] =>
    match base64Val a, base64Val b, base64Val c with
    | some a, some b, some c =>
      let n := (a * 64 + b) * 64 + c
      some [UInt8.ofNat (n / 1024), UInt8.ofNat (n / 4 % 256)]
    | _, _, _ => none
  | a :: b :: c :: d :: rest =>
    match base64Val a, base64Val b, base64Val c, base64Val d, unbase64 rest with
    | some a, some b, some c, some d, some bytes =>
      let n := ((a * 64 + b) * 64 + c) * 64 + d
      some (UInt8.ofNat (n / 65536) :: UInt8.ofNat (n / 256 % 256) :: UInt8.ofNat (n % 256) ::
        bytes)
    | _, _, _, _, _ => none
  | _ => none

/-- Into a byte slice: a string of base64 text, in which line breaks are
skipped. -/
def decBytes : Dec (List UInt8) := fun _ j =>
  match j with
  | .null => .ok []
  | .str _ s =>
    match unbase64 (s.toList.filter (fun c => c != '\n' && c != '\r')) with
    | some bytes => .ok bytes
    | none => .error "illegal base64 data"
  | _ => .error "json: cannot unmarshal into Go value of type []uint8"

def TypeMeta.field (t : TypeMeta) (key : String) (v : Json) : Option (Except String TypeMeta) :=
  if key = "kind" then some ((decString t.Kind v).map (fun x => { t with Kind := x }))
  else if key = "apiVersion" then
    some ((decString t.APIVersion v).map (fun x => { t with APIVersion := x }))
  else none

def ListMeta.field (m : ListMeta) (key : String) (v : Json) : Except String ListMeta :=
  if key = "selfLink" then (decString m.SelfLink v).map (fun x => { m with SelfLink := x })
  else if key = "resourceVersion" then
    (decString m.ResourceVersion v).map (fun x => { m with ResourceVersion := x })
  else if key = "continue" then (decString m.Continue v).map (fun x => { m with Continue := x })
  else if key = "remainingItemCount" then
    (decPtr 0 (decInt 64) m.RemainingItemCount v).map
      (fun x => { m with RemainingItemCount := x })
  else .ok m

def StatusCause.field (c : StatusCause) (key : String) (v : Json) : Except String StatusCause :=
  if key = "reason" then (decString c.Type_ v).map (fun x => { c with Type_ := x })
  else if key = "message" then (decString c.Message v).map (fun x => { c with Message := x })
  else if key = "field" then (decString c.Field v).map (fun x => { c with Field := x })
  else .ok c

def StatusDetails.field (d : StatusDetails) (key : String) (v : Json) :
    Except String StatusDetails :=
  if key = "name" then (decString d.Name v).map (fun x => { d with Name := x })
  else if key = "group" then (decString d.Group v).map (fun x => { d with Group := x })
  else if key = "kind" then (decString d.Kind v).map (fun x => { d with Kind := x })
  else if key = "uid" then (decString d.UID v).map (fun x => { d with UID := x })
  else if key = "causes" then
    (decList {} (decStruct StatusCause.field) d.Causes v).map (fun x => { d with Causes := x })
  else if key = "retryAfterSeconds" then
    (decInt 32 d.RetryAfterSeconds v).map (fun x => { d with RetryAfterSeconds := x })
  else .ok d

def Status.field (s : Kuberos.Status) (key : String) (v : Json) : Except String Kuberos.Status :=
  match s.TypeMeta.field key v with
  | some r => r.map (fun x => { s with TypeMeta := x })
  | none =>
    if key = "metadata" then
      (decStruct ListMeta.field s.ListMeta v).map (fun x => { s with ListMeta := x })
    else if key = "status" then (decString s.Status v).map (fun x => { s with Status := x })
    else if key = "message" then (decString s.Message v).map (fun x => { s with Message := x })
    else if key = "reason" then (decString s.Reason v).map (fun x => { s with Reason := x })
    else if key = "details" then
      (decPtr {} (decStruct StatusDetails.field) s.Details v).map
        (fun x => { s with Details := x })
    else if key = "code" then (decInt 32 s.Code v).map (fun x => { s with Code := x })
    else .ok s

def AdmissionResponse.field (r : AdmissionResponse) (key : String) (v : Json) :
    Except String AdmissionResponse :=
  if key = "uid" then (decString r.UID v).map (fun x => { r with UID := x })
  else if key = "allowed" then (decBool r.Allowed v).map (fun x => { r with Allowed := x })
  else if key = "status" then
    (decPtr {} (decStruct Status.field) r.Result v).map (fun x => { r with Result := x })
  else if key = "patch" then (decBytes r.Patch v).map (fun x => { r with Patch := x })
  else if key = "patchType" then
    (decPtr "" decString r.PatchType v).map (fun x => { r with PatchType := x })
  else if key = "auditAnnotations" then
    (decMap "" decString r.AuditAnnotations v).map (fun x => { r with AuditAnnotations := x })
  else if key = "warnings" then
    (decList "" decString r.Warnings v).map (fun x => { r with Warnings := x })
  else .ok r

def GroupVersionKind.field (k : GroupVersionKind) (key : String) (v : Json) :
    Except String GroupVersionKind :=
  if key = "group" then (decString k.Group v).map (fun x => { k with Group := x })
  else if key = "version" then (decString k.Version v).map (fun x => { k with Version := x })
  else if key = "kind" then (decString k.Kind v).map (fun x => { k with Kind := x })
  else .ok k

def GroupVersionResource.field (k : GroupVersionResource) (key : String) (v : Json) :
    Except String GroupVersionResource :=
  if key = "group" then (decString k.Group v).map (fun x => { k with Group := x })
  else if key = "version" then (decString k.Version v).map (fun x => { k with Version := x })
  else if key = "resource" then (decString k.Resource v).map (fun x => { k with Resource := x })
  else .ok k

def UserInfo.field (u : Kuberos.UserInfo) (key : String) (v : Json) :
    Except String Kuberos.UserInfo :=
  if key = "username" then (decString u.Username v).map (fun x => { u with Username := x })
  else if key = "uid" then (decString u.UID v).map (fun x => { u with UID := x })
  else if key = "groups" then
    (decList "" decString u.Groups v).map (fun x => { u with Groups := x })
  else if key = "extra" then
    (decMap [] (decList "" decString) u.Extra v).map (fun x => { u with Extra := x })
  else .ok u

def AdmissionRequest.field (r : AdmissionRequest) (key : String) (v : Json) :
    Except String AdmissionRequest :=
  if key = "uid" then (decString r.UID v).map (fun x => { r with UID := x })
  else if key = "kind" then
    (decStruct GroupVersionKind.field r.Kind v).map (fun x => { r with Kind := x })
  else if key = "resource" then
    (decStruct GroupVersionResource.field r.Resource v).map (fun x => { r with Resource := x })
  else if key = "subResource" then
    (decString r.SubResource v).map (fun x => { r with SubResource := x })
  else if key = "requestKind" then
    (decPtr {} (decStruct GroupVersionKind.field) r.RequestKind v).map
      (fun x => { r with RequestKind := x })
  else if key = "requestResource" then
    (decPtr {} (decStruct GroupVersionResource.field) r.RequestResource v).map
      (fun x => { r with RequestResource := x })
  else if key = "requestSubResource" then
    (decString r.RequestSubResource v).map (fun x => { r with RequestSubResource := x })
  else if key = "name" then (decString r.Name v).map (fun x => { r with Name := x })
  else if key = "namespace" then
    (decString r.Namespace v).map (fun x => { r with Namespace := x })
  else if key = "operation" then
    (decString r.Operation v).map (fun x => { r with Operation := x })
  else if key = "userInfo" then
    (decStruct UserInfo.field r.UserInfo v).map (fun x => { r with UserInfo := x })
  else if key = "object" then (decRaw r.Object v).map (fun x => { r with Object := x })
  else if key = "oldObject" then (decRaw r.OldObject v).map (fun x => { r with OldObject := x })
  else if key = "dryRun" then
    (decPtr false decBool r.DryRun v).map (fun x => { r with DryRun := x })
  else if key = "options" then (decRaw r.Options v).map (fun x => { r with Options := x })
  else .ok r

def AdmissionReview.field (ar : AdmissionReview) (key : String) (v : Json) :
    Except String AdmissionReview :=
  match ar.TypeMeta.field key v with
  | some r => r.map (fun x => { ar with TypeMeta := x })
  | none =>
    if key = "request" then
      (decPtr {} (decStruct AdmissionRequest.field) ar.Request v).map
        (fun x => { ar with Request := x })
    else if key = "response" then
      (decPtr {} (decStruct AdmissionResponse.field) ar.Response v).map
        (fun x => { ar with Response := x })
    else .ok ar

/-- Case folding of member names as `encoding/json` matches them: the ASCII
letters, and the two characters that fold to `s` and `k`. -/
def foldChar (c : Char) : Char :=
  if 'a' ≤ c ∧ c ≤ 'z' then Char.ofNat (c.toNat - 32)
  else if c.toNat = 0x17F then 'S'
  else if c.toNat = 0x212A then 'K'
  else c

def equalFold (a b : String) : Bool :=
  a.toList.map foldChar == b.toList.map foldChar

/-- The function `ParseGroupVersion`. -/
def ParseGroupVersion (gv : String) : Except String GroupVersion :=
  if gv.length = 0 ∨ gv = "/" then .ok {}
  else
    match gv.toList.count '/' with
    | 0 => .ok { Group := "", Version := gv }
    | 1 =>
      .ok { Group := String.mk (gv.toList.takeWhile (fun c => c != '/')),
            Version := String.mk ((gv.toList.dropWhile (fun c => c != '/')).drop 1) }
    | _ => .error ("unexpected GroupVersion string: " ++ gv)

/-- The method `SimpleMetaFactory.Interpret`: the `apiVersion` and `kind`
members of the top-level object, matched without regard to case, as
`encoding/json` matches the fields of a struct. -/
def Interpret (j : Json) : Except String GroupVersionKind :=
  let findKind : Except String (String × String) :=
    decStruct (fun (acc : String × String) key v =>
      if equalFold key "apiVersion" then (decString acc.1 v).map (fun x => (x, acc.2))
      else if equalFold key "kind" then (decString acc.2 v).map (fun x => (acc.1, x))
      else .ok acc) ("", "") j
  match findKind with
  | .error e => .error ("couldn't get version/kind; json parse error: " ++ e)
  | .ok (apiVersion, kind) =>
    match ParseGroupVersion apiVersion with
    | .error e => .error e
    | .ok gv => .ok (gv.WithKind kind)

/-- The kinds `corev1.AddToScheme` registers in the core group. -/
def coreKinds : List String :=
  ["Pod", "PodList", "PodStatusResult", "PodTemplate", "PodTemplateList",
   "ReplicationController", "ReplicationControllerList", "Service", "ServiceProxyOptions",
   "ServiceList", "Endpoints", "EndpointsList", "Node", "NodeList", "NodeProxyOptions",
   "Binding", "Event", "EventList", "List", "LimitRange", "LimitRangeList", "ResourceQuota",
   "ResourceQuotaList", "Namespace", "NamespaceList", "Secret", "SecretList", "ServiceAccount",
   "ServiceAccountList", "PersistentVolume", "PersistentVolumeList", "PersistentVolumeClaim",
   "PersistentVolumeClaimList", "PodAttachOptions", "PodLogOptions", "PodExecOptions",
   "PodPortForwardOptions", "PodProxyOptions", "ComponentStatus", "ComponentStatusList",
   "SerializedReference", "RangeAllocation", "ConfigMap", "ConfigMapList"]

/-- The kinds `admissionregistrationv1.AddToScheme` registers in its group. -/
def admissionregistrationKinds : List String :=
  ["ValidatingWebhookConfiguration", "ValidatingWebhookConfigurationList",
   "MutatingWebhookConfiguration", "MutatingWebhookConfigurationList"]

/-- The kinds `metav1.AddToGroupVersion` registers in every group version. -/
def metaKinds : List String :=
  ["WatchEvent", "ListOptions", "GetOptions", "DeleteOptions", "CreateOptions",
   "UpdateOptions", "PatchOptions"]

/-- The kinds `metav1.AddToGroupVersion` registers as unversioned: they are
found under any group and version. -/
def unversionedKinds : List String :=
  ["Status", "APIVersions", "APIGroupList", "APIGroup", "APIResourceList"]

/-- The scheme after `addToScheme`, as `scheme.New` sees it: a fresh object of
the Go type registered for the group, version and kind, `none` when nothing
is registered for them. -/
def schemeNew (gvk : GroupVersionKind) : Option Object :=
  if gvk = SchemeGroupVersion.WithKind "AdmissionReview" then some (.admissionReview {})
  else if gvk.Group = "" ∧ gvk.Version = "v1" ∧ gvk.Kind ∈ coreKinds then
    some (.other ("*v1." ++ gvk.Kind))
  else if gvk.Group = "admissionregistration.k8s.io" ∧ gvk.Version = "v1" ∧
      gvk.Kind ∈ admissionregistrationKinds then
    some (.other ("*v1." ++ gvk.Kind))
  else if gvk.Version = "v1" ∧
      (gvk.Group = "" ∨ gvk.Group = "admission.k8s.io" ∨
        gvk.Group = "admissionregistration.k8s.io") ∧ gvk.Kind ∈ metaKinds then
    some (.other ("*v1." ++ gvk.Kind))
  else if gvk.Kind ∈ unversionedKinds then some (.other ("*v1." ++ gvk.Kind))
  else none

/-- The deserializer on a JSON body.  An object of a kind other than
`AdmissionReview` is returned without its fields, which this program never
looks at. -/
def jsonDecode : Decoder := fun body =>
  match skipSpace body.toList with
  | '\x7b' :: _ =>
    match parseJson body with
    | none => .error "couldn't get version/kind; json parse error"
    | some j =>
      match Interpret j with
      | .error e => .error e
      | .ok actual =>
        if actual.Kind.length = 0 then .error ("Object 'Kind' is missing in '" ++ body ++ "'")
        else if actual.Version.length = 0 then
          .error ("Object 'apiVersion' is missing in '" ++ body ++ "'")
        else
          match schemeNew actual with
          | none =>
            .error ("no kind \"" ++ actual.Kind ++ "\" is registered for version \"" ++
              actual.GroupVersion.str ++ "\" in scheme")
          | some (.other goType) => .ok (.other goType, actual)
          | some (.admissionReview zero) =>
            match decStruct AdmissionReview.field zero j with
            | .error e => .error e
            | .ok ar => .ok (.admissionReview ar, actual)
  | _ => .error "couldn't get version/kind; json parse error"

/-! ## The scenarios of the specification -/

/-- Whether `sub` occurs in `s` as a contiguous run of characters. -/
def hasSubstring (s sub : String) : Bool :=
  s.toList.tails.any (fun t => sub.toList.isPrefixOf t)

/-- The headers of a request with `Content-Type: application/json`. -/
def jsonHeader : Header := [("Content-Type", ["application/json"])]

/-- The body of the success scenario: the review of a core v1 Pod. -/
def podReviewBody : String :=
  "\x7b\"kind\":\"AdmissionReview\",\"apiVersion\":\"admission.k8s.io/v1\",\"request\":\x7b\"uid\":\"abc-123\",\"kind\":\x7b\"group\":\"\",\"version\":\"v1\",\"kind\":\"Pod\"\x7d\x7d\x7d"

/-- The success scenario. -/
def podReviewRequest : Request :=
  { Header := jsonHeader, Body := some (.ok podReviewBody) }

/-- The review the body of the success scenario decodes to. -/
def podReview : AdmissionReview :=
  { TypeMeta := { Kind := "AdmissionReview", APIVersion := "admission.k8s.io/v1" }
    Request := some { UID := "abc-123", Kind := { Group := "", Version := "v1", Kind := "Pod" } } }

/-- The same body sent as `text/plain`. -/
def textPlainRequest : Request :=
  { Header := [("Content-Type", ["text/plain"])], Body := some (.ok podReviewBody) }

/-- The body `not json` with the right content type. -/
def notJsonRequest : Request :=
  { Header := jsonHeader, Body := some (.ok "not json") }

/-- A body that cannot be read, with the right content type. -/
def unreadableRequest : Request :=
  { Header := jsonHeader, Body := some (.error "unexpected EOF") }

/-- A core v1 Pod, with the right content type. -/
def podRequest : Request :=
  { Header := jsonHeader
    Body := some (.ok "\x7b\"kind\":\"Pod\",\"apiVersion\":\"v1\",\"metadata\":\x7b\"name\":\"web\"\x7d\x7d") }

/-- A review that passes the decode and kind checks and has no `request`
member. -/
def emptyReviewRequest : Request :=
  { Header := jsonHeader
    Body := some (.ok "\x7b\"kind\":\"AdmissionReview\",\"apiVersion\":\"admission.k8s.io/v1\"\x7d") }

/-- The fragment the specification expects in the body of the success
scenario. -/
def expectedFragment : String :=
  "\"response\":\x7b\"uid\":\"abc-123\",\"allowed\":true,\"status\":\x7b\"message\":\"this webhook allows all requests\"\x7d\x7d"

/-- The fragment `json.Marshal` writes there. -/
def writtenFragment : String :=
  "\"response\":\x7b\"uid\":\"abc-123\",\"allowed\":true,\"status\":\x7b\"metadata\":\x7b\x7d,\"message\":\"this webhook allows all requests\"\x7d\x7d"

/-- A decision function that denies, with a UID of its own. -/
def denyAll (_ar : AdmissionReview) : Option AdmissionResponse :=
  some { UID := "stale", Allowed := false, Result := some { Message := "denied", Code := 403 } }

/-- A decision function that returns nil. -/
def noDecision (_ar : AdmissionReview) : Option AdmissionResponse :=
  none

/-- A deserializer that hands back an object of another Go type under the
group, version and kind of the review. -/
def mistypedDecode : Decoder :=
  fun _ => .ok (.other "*v1.Pod", SchemeGroupVersion.WithKind "AdmissionReview")


/-! ## Specification predicates for the JSON parser -/

/-- `txt` parses as the value `v`, whatever follows, given fuel `n`. -/
def ParsesValue (txt : List Char) (v : Json) (n : Nat) : Prop :=
  ∀ (f : Nat) (tail : List Char), n ≤ f → parseValue f (txt ++ tail) = some (v, tail)

/-- `txt` parses as the members `ms` up to the closing brace it ends with. -/
def ParsesMembers (txt : List Char) (ms : List (String × Json)) (n : Nat) : Prop :=
  ∀ (f : Nat) (tail : List Char), n ≤ f → parseMembers f (txt ++ tail) = some (ms, tail)

/-- The envelope `ServeHTTP` marshals for a request with the given UID. -/
def allowEnvelope (uid : String) : AdmissionReview :=
  { TypeMeta := { Kind := "AdmissionReview", APIVersion := "admission.k8s.io/v1" }
    Request := none
    Response := some
      { UID := uid, Allowed := true,
        Result := some { Message := "this webhook allows all requests" } } }

/-! ## Theorems

### The parser reads back what the encoder writes -/


theorem psb_step (f : Nat) (c : Char) (rest acc : List Char) :
    parseStringBody (f + 1) (c :: rest) acc =
    if c = '"' then some (String.mk acc.reverse, rest)
    else if c = '\\' then
      match rest with
      | [] => none
      | e :: rest1 =>
        if e = '"' then parseStringBody f rest1 ('"' :: acc)
        else if e = '\\' then parseStringBody f rest1 ('\\' :: acc)
        else if e = '/' then parseStringBody f rest1 ('/' :: acc)
        else if e = 'b' then parseStringBody f rest1 (Char.ofNat 8 :: acc)
        else if e = 'f' then parseStringBody f rest1 (Char.ofNat 12 :: acc)
        else if e = 'n' then parseStringBody f rest1 ('\n' :: acc)
        else if e = 'r' then parseStringBody f rest1 ('\r' :: acc)
        else if e = 't' then parseStringBody f rest1 ('\t' :: acc)
        else if e = 'u' then
          match parseHex4 rest1 with
          | none => none
          | some (hi, rest2) =>
            if 0xD800 ≤ hi ∧ hi < 0xE000 then
              match rest2 with
              | '\\' :: 'u' :: rest3 =>
                match parseHex4 rest3 with
                | none => none
                | some (lo, rest4) =>
                  if hi < 0xDC00 ∧ 0xDC00 ≤ lo ∧ lo < 0xE000 then
                    parseStringBody f rest4
                      (Char.ofNat (0x10000 + (hi - 0xD800) * 1024 + (lo - 0xDC00)) :: acc)
                  else parseStringBody f rest2 (Char.ofNat 0xFFFD :: acc)
              | _ => parseStringBody f rest2 (Char.ofNat 0xFFFD :: acc)
            else parseStringBody f rest2 (Char.ofNat hi :: acc)
        else none
    else if c.toNat < 32 then none
    else parseStringBody f rest (c :: acc) := by
  rfl

theorem hexVal_hexDigit : ∀ k, k < 16 → hexVal (hexDigit k) = some k := by
  decide

theorem parseHex4_escape (n : Nat) (hn : n < 128) (tail : List Char) :
    parseHex4 ('0' :: '0' :: hexDigit (n / 16) :: hexDigit (n % 16) :: tail) = some (n, tail) := by
  have h1 := hexVal_hexDigit (n / 16) (by omega)
  have h2 := hexVal_hexDigit (n % 16) (by omega)
  have h0 : hexVal '0' = some 0 := by decide
  simp only [parseHex4, h0, h1, h2]
  simp
  omega

theorem parseStringBody_escape (s : List Char) :
    ∀ (fuel : Nat) (rest acc : List Char), s.length < fuel →
      parseStringBody fuel (s.flatMap escapeChar ++ '"' :: rest) acc =
        some (String.mk (acc.reverse ++ s), rest) := by
  induction s with
  | nil =>
    intro fuel rest acc h
    obtain ⟨f, rfl⟩ : ∃ f, fuel = f + 1 := ⟨fuel - 1, by simp at h; omega⟩
    simp [psb_step]
  | cons c s ih =>
    intro fuel rest acc h
    obtain ⟨f, rfl⟩ : ∃ f, fuel = f + 1 := ⟨fuel - 1, by simp at h; omega⟩
    have hf : s.length < f := by simp at h; omega
    simp only [List.flatMap_cons, List.append_assoc]
    rw [show escapeChar c = (if c = '"' then ['\\', '"']
  else if c = '\\' then ['\\', '\\']
  else if c = '\n' then ['\\', 'n']
  else if c = '\r' then ['\\', 'r']
  else if c = '\t' then ['\\', 't']
  else if c.toNat < 32 ∨ c = '<' ∨ c = '>' ∨ c = '&' then
    ['\\', 'u', '0', '0', hexDigit (c.toNat / 16), hexDigit (c.toNat % 16)]
  else if c.toNat = 0x2028 then ['\\', 'u', '2', '0', '2', '8']
  else if c.toNat = 0x2029 then ['\\', 'u', '2', '0', '2', '9']
  else [c]) from rfl]
    split_ifs with h1 h2 h3 h4 h5 h6 h7 h8
    · subst h1
      simp only [List.cons_append, List.nil_append]
      rw [psb_step]
      simp [ih f rest _ hf]
    · subst h2
      simp only [List.cons_append, List.nil_append]
      rw [psb_step]
      simp [ih f rest _ hf]
    · subst h3
      simp only [List.cons_append, List.nil_append]
      rw [psb_step]
      simp [ih f rest _ hf]
    · subst h4
      simp only [List.cons_append, List.nil_append]
      rw [psb_step]
      simp [ih f rest _ hf]
    · subst h5
      simp only [List.cons_append, List.nil_append]
      rw [psb_step]
      simp [ih f rest _ hf]
    · have hn : c.toNat < 128 := by
        rcases h6 with h | h | h | h
        · omega
        · subst h; decide
        · subst h; decide
        · subst h; decide
      simp only [List.cons_append, List.nil_append]
      rw [psb_step]
      simp only [h1, h2, if_false]
      have e1 : ('\\' : Char) ≠ '"' := by decide
      have e2 : ('u' : Char) ≠ '"' := by decide
      simp [parseHex4_escape _ hn, ih f rest _ hf]
      intro h
      omega
    · have hc : c = Char.ofNat 0x2028 := by rw [← Char.ofNat_toNat c, h7]
      subst hc
      simp only [List.cons_append, List.nil_append]
      rw [psb_step]
      have hx : ∀ tail, parseHex4 ('2' :: '0' :: '2' :: '8' :: tail) = some (0x2028, tail) :=
        fun _ => rfl
      simp [hx, ih f rest _ hf]
    · have hc : c = Char.ofNat 0x2029 := by rw [← Char.ofNat_toNat c, h8]
      subst hc
      simp only [List.cons_append, List.nil_append]
      rw [psb_step]
      have hx : ∀ tail, parseHex4 ('2' :: '0' :: '2' :: '9' :: tail) = some (0x2029, tail) :=
        fun _ => rfl
      simp [hx, ih f rest _ hf]
    · have h9 : ¬ c.toNat < 32 := fun h => h6 (Or.inl h)
      simp only [List.cons_append, List.nil_append]
      rw [psb_step]
      simp [ih f rest _ hf, h1, h2, h9]

theorem parseValue_step (f : Nat) (cs : List Char) :
    parseValue (f + 1) cs =
    match skipSpace cs with
    | [] => none
    | c :: rest =>
      if c = '\x7b' then
        match skipSpace rest with
        | '\x7d' :: rest1 => some (.obj (consumed (skipSpace cs) rest1) [], rest1)
        | _ =>
          match parseMembers f rest with
          | none => none
          | some (ms, rest1) => some (.obj (consumed (skipSpace cs) rest1) ms, rest1)
      else if c = '[' then
        match skipSpace rest with
        | ']' :: rest1 => some (.arr (consumed (skipSpace cs) rest1) [], rest1)
        | _ =>
          match parseElements f rest with
          | none => none
          | some (es, rest1) => some (.arr (consumed (skipSpace cs) rest1) es, rest1)
      else if c = '"' then
        match parseStringBody (rest.length + 1) rest [] with
        | none => none
        | some (s, rest1) => some (.str (consumed (skipSpace cs) rest1) s, rest1)
      else if c = '-' ∨ c.isDigit then
        match parseNumber (skipSpace cs) with
        | none => none
        | some rest1 => some (.num (consumed (skipSpace cs) rest1), rest1)
      else
        match skipSpace cs with
        | 't' :: 'r' :: 'u' :: 'e' :: rest1 => some (.bool true, rest1)
        | 'f' :: 'a' :: 'l' :: 's' :: 'e' :: rest1 => some (.bool false, rest1)
        | 'n' :: 'u' :: 'l' :: 'l' :: rest1 => some (.null, rest1)
        | _ => none := by
  rfl

theorem parseMembers_step (f : Nat) (cs : List Char) :
    parseMembers (f + 1) cs =
    match skipSpace cs with
    | '"' :: rest =>
      match parseStringBody (rest.length + 1) rest [] with
      | none => none
      | some (key, rest1) =>
        match skipSpace rest1 with
        | ':' :: rest2 =>
          match parseValue f rest2 with
          | none => none
          | some (v, rest3) =>
            match skipSpace rest3 with
            | ',' :: rest4 =>
              match parseMembers f rest4 with
              | none => none
              | some (ms, rest5) => some ((key, v) :: ms, rest5)
            | '\x7d' :: rest4 => some ([(key, v)], rest4)
            | _ => none
        | _ => none
    | _ => none := by
  rfl

theorem skipSpace_cons (c : Char) (cs : List Char) (h : isSpace c = false) :
    skipSpace (c :: cs) = c :: cs := by
  rw [skipSpace]
  simp [h]

theorem consumed_append (txt tail : List Char) : consumed (txt ++ tail) tail = String.mk txt := by
  simp [consumed]

theorem escapeChar_length (c : Char) : 1 ≤ (escapeChar c).length := by
  unfold escapeChar
  split_ifs <;> simp

theorem escape_length (s : List Char) : s.length ≤ (s.flatMap escapeChar).length := by
  induction s with
  | nil => simp
  | cons c s ih =>
    have := escapeChar_length c
    simp only [List.flatMap_cons, List.length_append, List.length_cons]
    omega

theorem encodeString_toList (s : String) :
    (encodeString s).toList = '"' :: (s.toList.flatMap escapeChar ++ ['"']) := by
  simp [encodeString]

theorem parsesValue_string (s : String) :
    ParsesValue (encodeString s).toList (.str (encodeString s) s) 1 := by
  intro f tail hf
  obtain ⟨g, rfl⟩ : ∃ g, f = g + 1 := ⟨f - 1, by omega⟩
  have hc := consumed_append (encodeString s).toList tail
  rw [parseValue_step]
  rw [encodeString_toList] at hc ⊢
  simp only [List.cons_append, List.append_assoc, List.nil_append] at hc ⊢
  rw [skipSpace_cons _ _ (by decide)]
  have hl := escape_length s.toList
  have hp := parseStringBody_escape s.toList
    ((s.toList.flatMap escapeChar ++ '"' :: tail).length + 1) tail []
    (by simp only [List.length_append, List.length_cons]; omega)
  simp only [hp, hc]
  simp
  exact String.ext (encodeString_toList s).symm

theorem parsesMembers_last (key : String) (vtxt : List Char) (v : Json) (n : Nat)
    (hv : ParsesValue vtxt v n) :
    ParsesMembers ((encodeString key).toList ++ ':' :: (vtxt ++ ['\x7d'])) [(key, v)] (n + 1) := by
  intro f tail hf
  obtain ⟨g, rfl⟩ : ∃ g, f = g + 1 := ⟨f - 1, by omega⟩
  rw [parseMembers_step, encodeString_toList]
  simp only [List.cons_append, List.append_assoc, List.nil_append]
  rw [skipSpace_cons _ _ (by decide)]
  have hl := escape_length key.toList
  have hp := parseStringBody_escape key.toList
    ((key.toList.flatMap escapeChar ++ '"' :: ':' :: (vtxt ++ '\x7d' :: tail)).length + 1)
    (':' :: (vtxt ++ '\x7d' :: tail)) []
    (by simp only [List.length_append, List.length_cons]; omega)
  simp only [hp]
  rw [skipSpace_cons _ _ (by decide)]
  simp only [hv g ('\x7d' :: tail) (by omega)]
  rw [skipSpace_cons _ _ (by decide)]
  simp

theorem parsesMembers_cons (key : String) (vtxt : List Char) (v : Json) (n : Nat)
    (more : List Char) (ms : List (String × Json)) (m : Nat)
    (hv : ParsesValue vtxt v n) (hm : ParsesMembers more ms m) :
    ParsesMembers ((encodeString key).toList ++ ':' :: (vtxt ++ ',' :: more)) ((key, v) :: ms)
      (max n m + 1) := by
  intro f tail hf
  obtain ⟨g, rfl⟩ : ∃ g, f = g + 1 := ⟨f - 1, by omega⟩
  rw [parseMembers_step, encodeString_toList]
  simp only [List.cons_append, List.append_assoc, List.nil_append]
  rw [skipSpace_cons _ _ (by decide)]
  have hl := escape_length key.toList
  have hp := parseStringBody_escape key.toList
    ((key.toList.flatMap escapeChar ++ '"' :: ':' :: (vtxt ++ ',' :: (more ++ tail))).length + 1)
    (':' :: (vtxt ++ ',' :: (more ++ tail))) []
    (by simp only [List.length_append, List.length_cons]; omega)
  simp only [hp]
  rw [skipSpace_cons _ _ (by decide)]
  simp only [hv g (',' :: (more ++ tail)) (by omega)]
  rw [skipSpace_cons _ _ (by decide)]
  simp [hm g tail (by omega)]

theorem parsesValue_object (key : String) (mtxt : List Char) (ms : List (String × Json))
    (n : Nat) (hm : ParsesMembers ((encodeString key).toList ++ mtxt) ms n) :
    ParsesValue ('\x7b' :: ((encodeString key).toList ++ mtxt))
      (.obj (String.mk ('\x7b' :: ((encodeString key).toList ++ mtxt))) ms) (n + 1) := by
  intro f tail hf
  obtain ⟨g, rfl⟩ : ∃ g, f = g + 1 := ⟨f - 1, by omega⟩
  have hc := consumed_append ('\x7b' :: ((encodeString key).toList ++ mtxt)) tail
  have := hm g tail (by omega)
  rw [parseValue_step]
  rw [encodeString_toList] at hc this ⊢
  simp only [List.cons_append, List.append_assoc, List.nil_append] at hc this ⊢
  rw [skipSpace_cons _ _ (by decide)]
  simp only [if_true]
  rw [skipSpace_cons _ _ (by decide)]
  simp only [this, hc]
  rfl

theorem parsesValue_empty_object :
    ParsesValue ['\x7b', '\x7d'] (.obj "\x7b\x7d" []) 1 := by
  intro f tail hf
  obtain ⟨g, rfl⟩ : ∃ g, f = g + 1 := ⟨f - 1, by omega⟩
  have hc := consumed_append ['\x7b', '\x7d'] tail
  rw [parseValue_step]
  simp only [List.cons_append, List.nil_append] at hc ⊢
  rw [skipSpace_cons _ _ (by decide)]
  simp only [if_true]
  rw [skipSpace_cons _ _ (by decide)]
  simp [hc]

theorem parsesValue_true : ParsesValue ['t', 'r', 'u', 'e'] (.bool true) 1 := by
  intro f tail hf
  obtain ⟨g, rfl⟩ : ∃ g, f = g + 1 := ⟨f - 1, by omega⟩
  rw [parseValue_step]
  simp only [List.cons_append, List.nil_append]
  rw [skipSpace_cons _ _ (by decide)]
  simp

theorem allowEnvelope_encode (uid : String) :
    (allowEnvelope uid).encode.toList =
      '\x7b' :: ((encodeString "kind").toList ++ ':' :: ((encodeString "AdmissionReview").toList ++
        ',' :: ((encodeString "apiVersion").toList ++ ':' ::
          ((encodeString "admission.k8s.io/v1").toList ++
        ',' :: ((encodeString "response").toList ++ ':' ::
          (('\x7b' :: ((encodeString "uid").toList ++ ':' :: ((encodeString uid).toList ++
            ',' :: ((encodeString "allowed").toList ++ ':' :: (['t', 'r', 'u', 'e'] ++
            ',' :: ((encodeString "status").toList ++ ':' ::
              (('\x7b' :: ((encodeString "metadata").toList ++ ':' :: (['\x7b', '\x7d'] ++
                ',' :: ((encodeString "message").toList ++ ':' ::
                  ((encodeString "this webhook allows all requests").toList ++ ['\x7d']))))) ++
              ['\x7d']))))))) ++ ['\x7d'])))))) := by
  simp [allowEnvelope, AdmissionReview.encode, AdmissionResponse.encode, Status.encode,
    ListMeta.encode, TypeMeta.members, encodeObject, member, memberStr, memberPtr, memberInt,
    memberList, memberMap, String.intercalate, String.intercalate.go]

theorem allowEnvelope_roundtrip (uid : String) :
    jsonDecode (allowEnvelope uid).encode =
      .ok (.admissionReview (allowEnvelope uid), SchemeGroupVersion.WithKind "AdmissionReview") := by
  have hstatus := parsesValue_object "metadata" _ _ _
    (parsesMembers_cons "metadata" _ _ _ _ _ _ parsesValue_empty_object
      (parsesMembers_last "message" _ _ _
        (parsesValue_string "this webhook allows all requests")))
  have hresp := parsesValue_object "uid" _ _ _
    (parsesMembers_cons "uid" _ _ _ _ _ _ (parsesValue_string uid)
      (parsesMembers_cons "allowed" _ _ _ _ _ _ parsesValue_true
        (parsesMembers_last "status" _ _ _ hstatus)))
  have htop := parsesValue_object "kind" _ _ _
    (parsesMembers_cons "kind" _ _ _ _ _ _ (parsesValue_string "AdmissionReview")
      (parsesMembers_cons "apiVersion" _ _ _ _ _ _ (parsesValue_string "admission.k8s.io/v1")
        (parsesMembers_last "response" _ _ _ hresp)))
  have henc := allowEnvelope_encode uid
  have hlen : 8 ≤ (allowEnvelope uid).encode.length := by
    rw [String.length, ← String.toList, henc]
    simp only [List.length_cons, List.length_append]
    omega
  have hparse := htop (2 * (allowEnvelope uid).encode.length + 2) [] (by simp; omega)
  rw [List.append_nil, ← henc] at hparse
  have hskip : skipSpace (allowEnvelope uid).encode.toList =
      '\x7b' :: (allowEnvelope uid).encode.toList.tail := by
    rw [henc, skipSpace_cons _ _ (by decide)]
    rfl
  unfold jsonDecode parseJson
  rw [hskip, hparse]
  rfl

set_option maxRecDepth 1000000

/-! ### The runs of the handler -/

/-- What `http.Error` leaves in a writer nothing was written to. -/
theorem Error_new (writeErr : Option String) (msg : String) (code : Nat) :
    Error (newResponseWriter writeErr) msg code =
      { header := [("X-Content-Type-Options", ["nosniff"]),
                   ("Content-Type", ["text/plain; charset=utf-8"])]
        status := some code
        sent := [("X-Content-Type-Options", ["nosniff"]),
                 ("Content-Type", ["text/plain; charset=utf-8"])]
        body := msg ++ "\n"
        writeErr := writeErr } := by
  simp [Error, newResponseWriter, ResponseWriter.Write, ResponseWriter.WriteHeader, Header.Set]

/-- The run on a request with another content type. -/
theorem serve_unsupported (Decode : Decoder) (Marshal : Marshaller) (w : ResponseWriter)
    (r : Request) (admitFunc : AdmissionReview → Option AdmissionResponse)
    (hct : r.Header.Get "Content-Type" ≠ "application/json") :
    serveAdmissionReview Decode Marshal w r admitFunc =
      { w := Error w ("contentType=" ++ r.Header.Get "Content-Type" ++
          ", expect application/json") StatusUnsupportedMediaType
        trace := [.log "warning" ("contentType=" ++ r.Header.Get "Content-Type" ++
          ", expect application/json")]
        panicked := false } := by
  simp [serveAdmissionReview, hct]

/-- The run on a body the deserializer rejects. -/
theorem serve_undecodable (Decode : Decoder) (Marshal : Marshaller) (w : ResponseWriter)
    (r : Request) (admitFunc : AdmissionReview → Option AdmissionResponse) (err : String)
    (hct : r.Header.Get "Content-Type" = "application/json")
    (hdec : Decode (readBody r) = .error err) :
    serveAdmissionReview Decode Marshal w r admitFunc =
      { w := Error w ("Request could not be decoded: " ++ err) StatusBadRequest
        trace := [.log "info" ("handling request: " ++ readBody r), .decode (readBody r),
          .log "error" ("Request could not be decoded: " ++ err)]
        panicked := false } := by
  simp [serveAdmissionReview, hct, hdec]

/-- The run on a body of another group, version or kind. -/
theorem serve_wrong_kind (Decode : Decoder) (Marshal : Marshaller) (w : ResponseWriter)
    (r : Request) (admitFunc : AdmissionReview → Option AdmissionResponse)
    (obj : Object) (gvk : GroupVersionKind)
    (hct : r.Header.Get "Content-Type" = "application/json")
    (hdec : Decode (readBody r) = .ok (obj, gvk))
    (hgvk : gvk ≠ SchemeGroupVersion.WithKind "AdmissionReview") :
    serveAdmissionReview Decode Marshal w r admitFunc =
      { w := Error w ("Unsupported group version kind: " ++ gvk.str) StatusBadRequest
        trace := [.log "info" ("handling request: " ++ readBody r), .decode (readBody r),
          .log "error" ("Unsupported group version kind: " ++ gvk.str)]
        panicked := false } := by
  simp [serveAdmissionReview, hct, hdec, hgvk]

/-- The run on an object that fails the type assertion. -/
theorem serve_mistyped (Decode : Decoder) (Marshal : Marshaller) (w : ResponseWriter)
    (r : Request) (admitFunc : AdmissionReview → Option AdmissionResponse) (goType : String)
    (hct : r.Header.Get "Content-Type" = "application/json")
    (hdec : Decode (readBody r) =
      .ok (.other goType, SchemeGroupVersion.WithKind "AdmissionReview")) :
    serveAdmissionReview Decode Marshal w r admitFunc =
      { w := w
        trace := [.log "info" ("handling request: " ++ readBody r), .decode (readBody r),
          .log "error" ("Expected v1.AdmissionReview but got: " ++ goType)]
        panicked := false } := by
  simp [serveAdmissionReview, hct, hdec]

/-- The envelope line 87 stamps. -/
theorem stamped_envelope :
    AdmissionReview.SetGroupVersionKind {} (SchemeGroupVersion.WithKind "AdmissionReview") =
      { TypeMeta := { Kind := "AdmissionReview", APIVersion := "admission.k8s.io/v1" } } := by
  decide

/-- The run on a review with a request, a decision that is not nil and an
envelope that marshals. -/
theorem serve_review (Decode : Decoder) (Marshal : Marshaller) (writeErr : Option String)
    (r : Request) (admitFunc : AdmissionReview → Option AdmissionResponse)
    (ar : AdmissionReview) (req : AdmissionRequest) (resp : AdmissionResponse) (bytes : String)
    (hct : r.Header.Get "Content-Type" = "application/json")
    (hdec : Decode (readBody r) =
      .ok (.admissionReview ar, SchemeGroupVersion.WithKind "AdmissionReview"))
    (hreq : ar.Request = some req) (hadm : admitFunc ar = some resp)
    (hm : Marshal
      { TypeMeta := { Kind := "AdmissionReview", APIVersion := "admission.k8s.io/v1" }
        Request := none
        Response := some { resp with UID := req.UID } } = .ok bytes) :
    (serveAdmissionReview Decode Marshal (newResponseWriter writeErr) r admitFunc).w =
      { header := [("Content-Type", ["application/json"])]
        status := some 200
        sent := [("Content-Type", ["application/json"])]
        body := bytes
        writeErr := writeErr } ∧
    (serveAdmissionReview Decode Marshal (newResponseWriter writeErr) r admitFunc).panicked =
      false ∧
    decodeCalls (serveAdmissionReview Decode Marshal (newResponseWriter writeErr) r
      admitFunc).trace = [readBody r] ∧
    admitCalls (serveAdmissionReview Decode Marshal (newResponseWriter writeErr) r
      admitFunc).trace = [ar] ∧
    marshalCalls (serveAdmissionReview Decode Marshal (newResponseWriter writeErr) r
      admitFunc).trace =
      [{ TypeMeta := { Kind := "AdmissionReview", APIVersion := "admission.k8s.io/v1" }
         Request := none
         Response := some { resp with UID := req.UID } }] := by
  have hs := stamped_envelope
  cases writeErr <;>
    simp [serveAdmissionReview, hct, hdec, hreq, hadm, hs, hm, newResponseWriter,
      ResponseWriter.Write, ResponseWriter.WriteHeader, Header.Set, decodeCalls, admitCalls,
      marshalCalls]

/-- The run on a review without a request, or with a nil decision. -/
theorem serve_nil (Decode : Decoder) (Marshal : Marshaller) (w : ResponseWriter)
    (r : Request) (admitFunc : AdmissionReview → Option AdmissionResponse)
    (ar : AdmissionReview)
    (hct : r.Header.Get "Content-Type" = "application/json")
    (hdec : Decode (readBody r) =
      .ok (.admissionReview ar, SchemeGroupVersion.WithKind "AdmissionReview"))
    (hnil : ar.Request = none ∨ admitFunc ar = none) :
    serveAdmissionReview Decode Marshal w r admitFunc =
      { w := w
        trace := [.log "info" ("handling request: " ++ readBody r), .decode (readBody r),
          .admitted ar]
        panicked := true } := by
  rcases hnil with h | h
  · cases hadm : admitFunc ar <;> simp [serveAdmissionReview, hct, hdec, h, hadm]
  · cases hreq : ar.Request <;> simp [serveAdmissionReview, hct, hdec, h, hreq]

/-- C1. UID correlation: when the content type is `application/json`, the body
decodes to an `admission.k8s.io/v1` `AdmissionReview` with a request, and the
decision function returns a response (with whatever UID), the handler answers
200 and the body it writes is the marshalled form of an envelope whose
`Response.UID` is the `Request.UID` of the request. -/
theorem response_uid_is_request_uid (Decode : Decoder) (Marshal : Marshaller)
    (writeErr : Option String) (r : Request)
    (admitFunc : AdmissionReview → Option AdmissionResponse)
    (ar : AdmissionReview) (req : AdmissionRequest) (resp : AdmissionResponse)
    (hct : r.Header.Get "Content-Type" = "application/json")
    (hdec : Decode (readBody r) =
      .ok (.admissionReview ar, SchemeGroupVersion.WithKind "AdmissionReview"))
    (hreq : ar.Request = some req) (hadm : admitFunc ar = some resp)
    (hm : ∀ obj, ∃ bytes, Marshal obj = .ok bytes) :
    ∃ obj : AdmissionReview,
      marshalCalls (serveAdmissionReview Decode Marshal (newResponseWriter writeErr) r
        admitFunc).trace = [obj] ∧
      Marshal obj = .ok (serveAdmissionReview Decode Marshal (newResponseWriter writeErr) r
        admitFunc).w.body ∧
      (serveAdmissionReview Decode Marshal (newResponseWriter writeErr) r
        admitFunc).w.status = some 200 ∧
      obj.Response.map (fun x => x.UID) = some req.UID := by
  obtain ⟨bytes, hb⟩ := hm
    { TypeMeta := { Kind := "AdmissionReview", APIVersion := "admission.k8s.io/v1" }
      Request := none
      Response := some { resp with UID := req.UID } }
  obtain ⟨hw, -, -, -, hmc⟩ :=
    serve_review Decode Marshal writeErr r admitFunc ar req resp bytes hct hdec hreq hadm hb
  exact ⟨_, hmc, by rw [hw]; exact hb, by rw [hw], rfl⟩

/-- The success scenario with a denying decision that carries the UID
`stale`: the envelope written has the UID `abc-123` of the request. -/
theorem response_uid_is_request_uid_witness :
    jsonHeader.Get "Content-Type" = "application/json" ∧
    jsonDecode podReviewBody =
      .ok (.admissionReview podReview, SchemeGroupVersion.WithKind "AdmissionReview") ∧
    denyAll podReview =
      some { UID := "stale", Result := some { Message := "denied", Code := 403 } } ∧
    ∃ obj : AdmissionReview,
      marshalCalls (serveAdmissionReview jsonDecode jsonMarshal (newResponseWriter none)
        podReviewRequest denyAll).trace = [obj] ∧
      jsonMarshal obj = .ok (serveAdmissionReview jsonDecode jsonMarshal
        (newResponseWriter none) podReviewRequest denyAll).w.body ∧
      (serveAdmissionReview jsonDecode jsonMarshal (newResponseWriter none) podReviewRequest
        denyAll).w.status = some 200 ∧
      obj.Response.map (fun x => x.UID) = some "abc-123" :=
  ⟨by decide, by decide, rfl,
   response_uid_is_request_uid jsonDecode jsonMarshal none podReviewRequest denyAll podReview
     { UID := "abc-123", Kind := { Group := "", Version := "v1", Kind := "Pod" } } _
     (by decide) (by decide) rfl rfl (fun obj => ⟨obj.encode, rfl⟩)⟩

/-- C2. The content-type gate: whatever the body, the codec and the decision
function, a request whose `Content-Type` is not exactly `application/json`
is answered with status 415, and neither the deserializer nor the decision
function (nor the marshaller) is called. -/
theorem content_type_gate (Decode : Decoder) (Marshal : Marshaller)
    (writeErr : Option String) (r : Request)
    (admitFunc : AdmissionReview → Option AdmissionResponse)
    (hct : r.Header.Get "Content-Type" ≠ "application/json") :
    (serveAdmissionReview Decode Marshal (newResponseWriter writeErr) r
      admitFunc).w.status = some 415 ∧
    decodeCalls (serveAdmissionReview Decode Marshal (newResponseWriter writeErr) r
      admitFunc).trace = [] ∧
    admitCalls (serveAdmissionReview Decode Marshal (newResponseWriter writeErr) r
      admitFunc).trace = [] ∧
    marshalCalls (serveAdmissionReview Decode Marshal (newResponseWriter writeErr) r
      admitFunc).trace = [] ∧
    (serveAdmissionReview Decode Marshal (newResponseWriter writeErr) r
      admitFunc).panicked = false := by
  rw [serve_unsupported Decode Marshal _ r admitFunc hct, Error_new]
  simp [decodeCalls, admitCalls, marshalCalls, StatusUnsupportedMediaType]

/-- The valid review sent as `text/plain`, and a request with no header and
no body at all: both are answered 415 with nothing decoded or decided. -/
theorem content_type_gate_witness :
    (textPlainRequest.Header.Get "Content-Type" ≠ "application/json" ∧
     (serveAdmissionReview jsonDecode jsonMarshal (newResponseWriter none) textPlainRequest
       allowAll).w.status = some 415 ∧
     decodeCalls (serveAdmissionReview jsonDecode jsonMarshal (newResponseWriter none)
       textPlainRequest allowAll).trace = [] ∧
     admitCalls (serveAdmissionReview jsonDecode jsonMarshal (newResponseWriter none)
       textPlainRequest allowAll).trace = [] ∧
     marshalCalls (serveAdmissionReview jsonDecode jsonMarshal (newResponseWriter none)
       textPlainRequest allowAll).trace = [] ∧
     (serveAdmissionReview jsonDecode jsonMarshal (newResponseWriter none) textPlainRequest
       allowAll).panicked = false) ∧
    (serveAdmissionReview jsonDecode jsonMarshal (newResponseWriter none) {}
      allowAll).w.status = some 415 :=
  ⟨⟨by decide,
    content_type_gate jsonDecode jsonMarshal none textPlainRequest allowAll (by decide)⟩,
   (content_type_gate jsonDecode jsonMarshal none {} allowAll (by decide)).1⟩

/-- C3. A body that is not a valid `admission.k8s.io/v1` `AdmissionReview`,
sent as `application/json`: whether the deserializer rejects it or decodes it
to an object of another group, version or kind, the handler answers 400 and
does not call the decision function. -/
theorem invalid_review_is_bad_request (Decode : Decoder) (Marshal : Marshaller)
    (writeErr : Option String) (r : Request)
    (admitFunc : AdmissionReview → Option AdmissionResponse)
    (hct : r.Header.Get "Content-Type" = "application/json")
    (hbad : (∃ err, Decode (readBody r) = .error err) ∨
      (∃ obj gvk, Decode (readBody r) = .ok (obj, gvk) ∧
        gvk ≠ SchemeGroupVersion.WithKind "AdmissionReview")) :
    (serveAdmissionReview Decode Marshal (newResponseWriter writeErr) r
      admitFunc).w.status = some 400 ∧
    admitCalls (serveAdmissionReview Decode Marshal (newResponseWriter writeErr) r
      admitFunc).trace = [] ∧
    marshalCalls (serveAdmissionReview Decode Marshal (newResponseWriter writeErr) r
      admitFunc).trace = [] ∧
    (serveAdmissionReview Decode Marshal (newResponseWriter writeErr) r
      admitFunc).panicked = false := by
  rcases hbad with ⟨err, hdec⟩ | ⟨obj, gvk, hdec, hgvk⟩
  · rw [serve_undecodable Decode Marshal _ r admitFunc err hct hdec, Error_new]
    simp [admitCalls, marshalCalls, StatusBadRequest]
  · rw [serve_wrong_kind Decode Marshal _ r admitFunc obj gvk hct hdec hgvk, Error_new]
    simp [admitCalls, marshalCalls, StatusBadRequest]

/-- The body `not json`, a body that cannot be read, and a core v1 Pod: each
is answered 400 without a decision. -/
theorem invalid_review_is_bad_request_witness :
    ((∃ err, jsonDecode (readBody notJsonRequest) = .error err) ∧
     (serveAdmissionReview jsonDecode jsonMarshal (newResponseWriter none) notJsonRequest
       allowAll).w.status = some 400 ∧
     admitCalls (serveAdmissionReview jsonDecode jsonMarshal (newResponseWriter none)
       notJsonRequest allowAll).trace = []) ∧
    ((∃ err, jsonDecode (readBody unreadableRequest) = .error err) ∧
     (serveAdmissionReview jsonDecode jsonMarshal (newResponseWriter none) unreadableRequest
       allowAll).w.status = some 400 ∧
     admitCalls (serveAdmissionReview jsonDecode jsonMarshal (newResponseWriter none)
       unreadableRequest allowAll).trace = []) ∧
    (jsonDecode (readBody podRequest) =
       .ok (.other "*v1.Pod", { Group := "", Version := "v1", Kind := "Pod" }) ∧
     (serveAdmissionReview jsonDecode jsonMarshal (newResponseWriter none) podRequest
       allowAll).w.status = some 400 ∧
     admitCalls (serveAdmissionReview jsonDecode jsonMarshal (newResponseWriter none)
       podRequest allowAll).trace = []) :=
  ⟨⟨⟨_, rfl⟩,
    (invalid_review_is_bad_request jsonDecode jsonMarshal none notJsonRequest allowAll
      (by decide) (Or.inl ⟨_, rfl⟩)).1,
    (invalid_review_is_bad_request jsonDecode jsonMarshal none notJsonRequest allowAll
      (by decide) (Or.inl ⟨_, rfl⟩)).2.1⟩,
   ⟨⟨_, rfl⟩,
    (invalid_review_is_bad_request jsonDecode jsonMarshal none unreadableRequest allowAll
      (by decide) (Or.inl ⟨_, rfl⟩)).1,
    (invalid_review_is_bad_request jsonDecode jsonMarshal none unreadableRequest allowAll
      (by decide) (Or.inl ⟨_, rfl⟩)).2.1⟩,
   ⟨by decide,
    (invalid_review_is_bad_request jsonDecode jsonMarshal none podRequest allowAll
      (by decide) (Or.inr ⟨.other "*v1.Pod", { Group := "", Version := "v1", Kind := "Pod" },
        by decide, by decide⟩)).1,
    (invalid_review_is_bad_request jsonDecode jsonMarshal none podRequest allowAll
      (by decide) (Or.inr ⟨.other "*v1.Pod", { Group := "", Version := "v1", Kind := "Pod" },
        by decide, by decide⟩)).2.1⟩⟩

/-- C4, as stated, fails: a review that passes the decode and kind checks and
has no `request` member makes line 89 dereference nil; `ServeHTTP` panics
with no status, no header and no body written. -/
theorem ServeHTTP_without_request_panics :
    emptyReviewRequest.Header.Get "Content-Type" = "application/json" ∧
    jsonDecode (readBody emptyReviewRequest) =
      .ok (.admissionReview
        { TypeMeta := { Kind := "AdmissionReview", APIVersion := "admission.k8s.io/v1" } },
        SchemeGroupVersion.WithKind "AdmissionReview") ∧
    (ServeHTTP jsonDecode jsonMarshal (newResponseWriter none) emptyReviewRequest).panicked =
      true ∧
    (ServeHTTP jsonDecode jsonMarshal (newResponseWriter none) emptyReviewRequest).w =
      newResponseWriter none ∧
    (ServeHTTP jsonDecode jsonMarshal (newResponseWriter none) emptyReviewRequest).w.status ≠
      some 200 := by
  decide

/-- C4, amended: for a request to `ServeHTTP` with content type
`application/json` whose body decodes to an `admission.k8s.io/v1`
`AdmissionReview` that carries a `request`, the status is 200, the
`Content-Type` sent is `application/json`, and the body written by
`json.Marshal` deserializes to an `AdmissionReview` with
`Response.Allowed = true` (and the UID of the request). -/
theorem ServeHTTP_allows (Decode : Decoder) (writeErr : Option String) (r : Request)
    (ar : AdmissionReview) (req : AdmissionRequest)
    (hct : r.Header.Get "Content-Type" = "application/json")
    (hdec : Decode (readBody r) =
      .ok (.admissionReview ar, SchemeGroupVersion.WithKind "AdmissionReview"))
    (hreq : ar.Request = some req) :
    (ServeHTTP Decode jsonMarshal (newResponseWriter writeErr) r).w.status = some 200 ∧
    (ServeHTTP Decode jsonMarshal (newResponseWriter writeErr) r).w.sent.Get "Content-Type" =
      "application/json" ∧
    (ServeHTTP Decode jsonMarshal (newResponseWriter writeErr) r).panicked = false ∧
    ∃ obj : AdmissionReview,
      jsonDecode (ServeHTTP Decode jsonMarshal (newResponseWriter writeErr) r).w.body =
        .ok (.admissionReview obj, SchemeGroupVersion.WithKind "AdmissionReview") ∧
      obj.Response.map (fun x => x.Allowed) = some true ∧
      obj.Response.map (fun x => x.UID) = some req.UID := by
  have hb : jsonMarshal
      { TypeMeta := { Kind := "AdmissionReview", APIVersion := "admission.k8s.io/v1" }
        Request := none
        Response := some
          { UID := req.UID, Allowed := true,
            Result := some { Message := "this webhook allows all requests" } } } =
      .ok (allowEnvelope req.UID).encode := rfl
  obtain ⟨hw, hp, -, -, -⟩ :=
    serve_review Decode jsonMarshal writeErr r allowAll ar req _ _ hct hdec hreq rfl hb
  unfold ServeHTTP
  rw [hw, hp]
  exact ⟨rfl, rfl, rfl, allowEnvelope req.UID, allowEnvelope_roundtrip req.UID, rfl, rfl⟩

/-- The success scenario: 200, `application/json`, and the body written
decodes back to a review with `Response.Allowed = true`. -/
theorem ServeHTTP_allows_witness :
    (podReviewRequest.Header.Get "Content-Type" = "application/json" ∧
     jsonDecode (readBody podReviewRequest) =
       .ok (.admissionReview podReview, SchemeGroupVersion.WithKind "AdmissionReview")) ∧
    (ServeHTTP jsonDecode jsonMarshal (newResponseWriter none) podReviewRequest).w.status =
      some 200 ∧
    (ServeHTTP jsonDecode jsonMarshal (newResponseWriter none)
      podReviewRequest).w.sent.Get "Content-Type" = "application/json" ∧
    (ServeHTTP jsonDecode jsonMarshal (newResponseWriter none) podReviewRequest).panicked =
      false ∧
    ∃ obj : AdmissionReview,
      jsonDecode (ServeHTTP jsonDecode jsonMarshal (newResponseWriter none)
        podReviewRequest).w.body =
        .ok (.admissionReview obj, SchemeGroupVersion.WithKind "AdmissionReview") ∧
      obj.Response.map (fun x => x.Allowed) = some true ∧
      obj.Response.map (fun x => x.UID) = some "abc-123" :=
  ⟨⟨by decide, by decide⟩,
   ServeHTTP_allows jsonDecode none podReviewRequest podReview
     { UID := "abc-123", Kind := { Group := "", Version := "v1", Kind := "Pod" } }
     (by decide) (by decide) rfl⟩

/-- C5, as stated, fails: in the success scenario the status is 200 and the
body does not contain the fragment with a status of `message` alone;
`json.Marshal` writes the `metadata` of the status before the message. -/
theorem success_body_lacks_expected_fragment :
    (ServeHTTP jsonDecode jsonMarshal (newResponseWriter none) podReviewRequest).w.status =
      some 200 ∧
    hasSubstring (ServeHTTP jsonDecode jsonMarshal (newResponseWriter none)
      podReviewRequest).w.body expectedFragment = false ∧
    hasSubstring (ServeHTTP jsonDecode jsonMarshal (newResponseWriter none)
      podReviewRequest).w.body "\"status\":\x7b\"metadata\":\x7b\x7d," = true := by
  decide

/-- C5, amended: in the success scenario (the body decoding to a review whose
request has the UID `abc-123`) the status is 200 and the body is the envelope
below, which contains
`"response":{"uid":"abc-123","allowed":true,"status":{"metadata":{},"message":"this webhook allows all requests"}}`. -/
theorem success_scenario (Decode : Decoder) (writeErr : Option String)
    (ar : AdmissionReview) (req : AdmissionRequest)
    (hdec : Decode podReviewBody =
      .ok (.admissionReview ar, SchemeGroupVersion.WithKind "AdmissionReview"))
    (hreq : ar.Request = some req) (huid : req.UID = "abc-123") :
    (ServeHTTP Decode jsonMarshal (newResponseWriter writeErr) podReviewRequest).w.status =
      some 200 ∧
    (ServeHTTP Decode jsonMarshal (newResponseWriter writeErr) podReviewRequest).w.body =
      "\x7b\"kind\":\"AdmissionReview\",\"apiVersion\":\"admission.k8s.io/v1\"," ++
        writtenFragment ++ "\x7d" ∧
    hasSubstring (ServeHTTP Decode jsonMarshal (newResponseWriter writeErr)
      podReviewRequest).w.body writtenFragment = true := by
  have hb : jsonMarshal
      { TypeMeta := { Kind := "AdmissionReview", APIVersion := "admission.k8s.io/v1" }
        Request := none
        Response := some
          { UID := req.UID, Allowed := true,
            Result := some { Message := "this webhook allows all requests" } } } =
      .ok ("\x7b\"kind\":\"AdmissionReview\",\"apiVersion\":\"admission.k8s.io/v1\"," ++
        writtenFragment ++ "\x7d") := by
    rw [huid]
    decide
  obtain ⟨hw, -, -, -, -⟩ :=
    serve_review Decode jsonMarshal writeErr podReviewRequest allowAll ar req _ _
      (by decide) hdec hreq rfl hb
  unfold ServeHTTP
  rw [hw]
  refine ⟨rfl, rfl, ?_⟩
  show hasSubstring ("\x7b\"kind\":\"AdmissionReview\",\"apiVersion\":\"admission.k8s.io/v1\"," ++
    writtenFragment ++ "\x7d") writtenFragment = true
  decide

/-- The success scenario with the JSON deserializer. -/
theorem success_scenario_witness :
    jsonDecode podReviewBody =
      .ok (.admissionReview podReview, SchemeGroupVersion.WithKind "AdmissionReview") ∧
    (ServeHTTP jsonDecode jsonMarshal (newResponseWriter none) podReviewRequest).w.status =
      some 200 ∧
    (ServeHTTP jsonDecode jsonMarshal (newResponseWriter none) podReviewRequest).w.body =
      "\x7b\"kind\":\"AdmissionReview\",\"apiVersion\":\"admission.k8s.io/v1\"," ++
        writtenFragment ++ "\x7d" ∧
    hasSubstring (ServeHTTP jsonDecode jsonMarshal (newResponseWriter none)
      podReviewRequest).w.body writtenFragment = true :=
  ⟨by decide,
   success_scenario jsonDecode none podReview
     { UID := "abc-123", Kind := { Group := "", Version := "v1", Kind := "Pod" } }
     (by decide) rfl rfl⟩

/-- C6, as stated, fails: for `Content-Type: text/plain` the body is not the
bare message; `http.Error` writes it with `fmt.Fprintln`, so a newline
follows it. -/
theorem unsupported_body_has_trailing_newline :
    textPlainRequest.Header.Get "Content-Type" = "text/plain" ∧
    (serveAdmissionReview jsonDecode jsonMarshal (newResponseWriter none) textPlainRequest
      allowAll).w.body ≠ "contentType=text/plain, expect application/json" ∧
    (serveAdmissionReview jsonDecode jsonMarshal (newResponseWriter none) textPlainRequest
      allowAll).w.body = "contentType=text/plain, expect application/json\n" := by
  decide

/-- C6, amended: for every `Content-Type` value `ct` other than
`application/json` (the empty string for a missing header) the status is 415
and the body is `contentType=<ct>, expect application/json` followed by one
newline, and nothing else. -/
theorem unsupported_body (Decode : Decoder) (Marshal : Marshaller)
    (writeErr : Option String) (r : Request)
    (admitFunc : AdmissionReview → Option AdmissionResponse)
    (hct : r.Header.Get "Content-Type" ≠ "application/json") :
    (serveAdmissionReview Decode Marshal (newResponseWriter writeErr) r
      admitFunc).w.status = some 415 ∧
    (serveAdmissionReview Decode Marshal (newResponseWriter writeErr) r
      admitFunc).w.body =
      "contentType=" ++ r.Header.Get "Content-Type" ++ ", expect application/json" ++ "\n" := by
  rw [serve_unsupported Decode Marshal _ r admitFunc hct, Error_new]
  exact ⟨rfl, rfl⟩

/-- The scenario with `text/plain`, and a request without the header. -/
theorem unsupported_body_witness :
    (textPlainRequest.Header.Get "Content-Type" ≠ "application/json" ∧
     (serveAdmissionReview jsonDecode jsonMarshal (newResponseWriter none) textPlainRequest
       allowAll).w.status = some 415 ∧
     (serveAdmissionReview jsonDecode jsonMarshal (newResponseWriter none) textPlainRequest
       allowAll).w.body = "contentType=text/plain, expect application/json\n") ∧
    (serveAdmissionReview jsonDecode jsonMarshal (newResponseWriter none) {}
      allowAll).w.body = "contentType=, expect application/json\n" :=
  ⟨⟨by decide,
    unsupported_body jsonDecode jsonMarshal none textPlainRequest allowAll (by decide)⟩,
   (unsupported_body jsonDecode jsonMarshal none {} allowAll (by decide)).2⟩

/-- C7. The response envelope: whatever the request, the codec, the writer and
the decision function, every envelope the handler builds and hands to
`json.Marshal` is stamped `apiVersion: admission.k8s.io/v1`,
`kind: AdmissionReview` (the group, version and kind the request decoded to),
has no `Request` and has a `Response`. -/
theorem response_envelope_type (Decode : Decoder) (Marshal : Marshaller) (w : ResponseWriter)
    (r : Request) (admitFunc : AdmissionReview → Option AdmissionResponse)
    (obj : AdmissionReview)
    (hobj : obj ∈ marshalCalls (serveAdmissionReview Decode Marshal w r admitFunc).trace) :
    obj.TypeMeta = { Kind := "AdmissionReview", APIVersion := "admission.k8s.io/v1" } ∧
    (obj.TypeMeta.APIVersion, obj.TypeMeta.Kind) =
      (SchemeGroupVersion.WithKind "AdmissionReview").ToAPIVersionAndKind ∧
    obj.Request = none ∧
    obj.Response.isSome = true ∧
    decodeCalls (serveAdmissionReview Decode Marshal w r admitFunc).trace = [readBody r] ∧
    ∃ ar, Decode (readBody r) =
      .ok (.admissionReview ar, SchemeGroupVersion.WithKind "AdmissionReview") := by
  by_cases hct : r.Header.Get "Content-Type" = "application/json"
  · cases hdec : Decode (readBody r) with
    | error err =>
      rw [serve_undecodable Decode Marshal w r admitFunc err hct hdec] at hobj
      simp [marshalCalls] at hobj
    | ok res =>
      obtain ⟨o, gvk⟩ := res
      by_cases hgvk : gvk = SchemeGroupVersion.WithKind "AdmissionReview"
      · subst hgvk
        cases o with
        | other goType =>
          rw [serve_mistyped Decode Marshal w r admitFunc goType hct hdec] at hobj
          simp [marshalCalls] at hobj
        | admissionReview ar =>
          cases hreq : ar.Request with
          | none =>
            rw [serve_nil Decode Marshal w r admitFunc ar hct hdec (Or.inl hreq)] at hobj
            simp [marshalCalls] at hobj
          | some req =>
            cases hadm : admitFunc ar with
            | none =>
              rw [serve_nil Decode Marshal w r admitFunc ar hct hdec (Or.inr hadm)] at hobj
              simp [marshalCalls] at hobj
            | some resp =>
              have hs := stamped_envelope
              have htr : marshalCalls (serveAdmissionReview Decode Marshal w r admitFunc).trace =
                  [{ TypeMeta :=
                       { Kind := "AdmissionReview", APIVersion := "admission.k8s.io/v1" }
                     Request := none
                     Response := some { resp with UID := req.UID } }] ∧
                  decodeCalls (serveAdmissionReview Decode Marshal w r admitFunc).trace =
                    [readBody r] := by
                cases hmar : Marshal
                    { TypeMeta :=
                        { Kind := "AdmissionReview", APIVersion := "admission.k8s.io/v1" }
                      Request := none
                      Response := some { resp with UID := req.UID } } with
                | error e =>
                  simp [serveAdmissionReview, hct, hdec, hreq, hadm, hs, hmar, marshalCalls,
                    decodeCalls]
                | ok bytes =>
                  cases hwe : w.writeErr <;>
                    simp [serveAdmissionReview, hct, hdec, hreq, hadm, hs, hmar, marshalCalls,
                      decodeCalls, ResponseWriter.Write, hwe]
              rw [htr.1] at hobj
              simp at hobj
              subst hobj
              have hk : ("admission.k8s.io/v1", "AdmissionReview") =
                  (SchemeGroupVersion.WithKind "AdmissionReview").ToAPIVersionAndKind := by
                decide
              exact ⟨rfl, hk, rfl, rfl, htr.2, ar, rfl⟩
      · rw [serve_wrong_kind Decode Marshal w r admitFunc o gvk hct hdec hgvk] at hobj
        simp [marshalCalls] at hobj
  · rw [serve_unsupported Decode Marshal w r admitFunc hct] at hobj
    simp [marshalCalls] at hobj

/-- The success scenario: one envelope is marshalled, and it is of the stamped
type, without a request. -/
theorem response_envelope_type_witness :
    marshalCalls (serveAdmissionReview jsonDecode jsonMarshal (newResponseWriter none)
      podReviewRequest allowAll).trace =
      [{ TypeMeta := { Kind := "AdmissionReview", APIVersion := "admission.k8s.io/v1" }
         Request := none
         Response := some
           { UID := "abc-123", Allowed := true,
             Result := some { Message := "this webhook allows all requests" } } }] ∧
    (({ TypeMeta := { Kind := "AdmissionReview", APIVersion := "admission.k8s.io/v1" }
        Request := none
        Response := some
          { UID := "abc-123", Allowed := true,
            Result := some { Message := "this webhook allows all requests" } } } :
        AdmissionReview).Request = none) :=
  ⟨by decide,
   (response_envelope_type jsonDecode jsonMarshal (newResponseWriter none) podReviewRequest
     allowAll
     { TypeMeta := { Kind := "AdmissionReview", APIVersion := "admission.k8s.io/v1" }
       Request := none
       Response := some
         { UID := "abc-123", Allowed := true,
           Result := some { Message := "this webhook allows all requests" } } }
     (by decide)).2.2.1⟩

/-- C8. The decision `ServeHTTP` passes is a constant function: for every
review it returns the response with `Allowed = true`, the message
`this webhook allows all requests`, and every other field at its zero
value. -/
theorem allowAll_constant (ar : AdmissionReview) :
    allowAll ar =
      some { UID := ""
             Allowed := true
             Result := some
               { TypeMeta := { Kind := "", APIVersion := "" }
                 ListMeta := { SelfLink := "", ResourceVersion := "", Continue := "",
                               RemainingItemCount := none }
                 Status := ""
                 Message := "this webhook allows all requests"
                 Reason := ""
                 Details := none
                 Code := 0 }
             Patch := []
             PatchType := none
             AuditAnnotations := []
             Warnings := [] } ∧
    (∀ ar2 : AdmissionReview, allowAll ar2 = allowAll ar) ∧
    (∀ (Decode : Decoder) (Marshal : Marshaller) (w : ResponseWriter) (r : Request),
      ServeHTTP Decode Marshal w r = serveAdmissionReview Decode Marshal w r allowAll) :=
  ⟨rfl, fun _ => rfl, fun _ _ _ _ => rfl⟩

/-- C9. The silent short-circuit: if the body decodes without error under the
group, version and kind of the review and the object is not an
`*admissionv1.AdmissionReview`, the handler returns with the writer untouched
(no status, no header, no body), without a decision and without a panic; the
client then sees status 200. -/
theorem type_assertion_failure_is_silent (Decode : Decoder) (Marshal : Marshaller)
    (writeErr : Option String) (r : Request)
    (admitFunc : AdmissionReview → Option AdmissionResponse) (goType : String)
    (hct : r.Header.Get "Content-Type" = "application/json")
    (hdec : Decode (readBody r) =
      .ok (.other goType, SchemeGroupVersion.WithKind "AdmissionReview")) :
    (serveAdmissionReview Decode Marshal (newResponseWriter writeErr) r admitFunc).w =
      { header := [], status := none, sent := [], body := "", writeErr := writeErr } ∧
    admitCalls (serveAdmissionReview Decode Marshal (newResponseWriter writeErr) r
      admitFunc).trace = [] ∧
    marshalCalls (serveAdmissionReview Decode Marshal (newResponseWriter writeErr) r
      admitFunc).trace = [] ∧
    (serveAdmissionReview Decode Marshal (newResponseWriter writeErr) r
      admitFunc).panicked = false ∧
    (serveAdmissionReview Decode Marshal (newResponseWriter writeErr) r
      admitFunc).w.clientStatus = 200 := by
  rw [serve_mistyped Decode Marshal _ r admitFunc goType hct hdec]
  simp [admitCalls, marshalCalls, newResponseWriter, ResponseWriter.clientStatus]

/-- A deserializer that returns a Pod under the kind of the review. -/
theorem type_assertion_failure_is_silent_witness :
    (podReviewRequest.Header.Get "Content-Type" = "application/json" ∧
     mistypedDecode (readBody podReviewRequest) =
       .ok (.other "*v1.Pod", SchemeGroupVersion.WithKind "AdmissionReview")) ∧
    (serveAdmissionReview mistypedDecode jsonMarshal (newResponseWriter none)
      podReviewRequest allowAll).w =
      { header := [], status := none, sent := [], body := "", writeErr := none } ∧
    admitCalls (serveAdmissionReview mistypedDecode jsonMarshal (newResponseWriter none)
      podReviewRequest allowAll).trace = [] ∧
    marshalCalls (serveAdmissionReview mistypedDecode jsonMarshal (newResponseWriter none)
      podReviewRequest allowAll).trace = [] ∧
    (serveAdmissionReview mistypedDecode jsonMarshal (newResponseWriter none)
      podReviewRequest allowAll).panicked = false ∧
    (serveAdmissionReview mistypedDecode jsonMarshal (newResponseWriter none)
      podReviewRequest allowAll).w.clientStatus = 200 :=
  ⟨⟨by decide, rfl⟩,
   type_assertion_failure_is_silent mistypedDecode jsonMarshal none podReviewRequest allowAll
     "*v1.Pod" (by decide) rfl⟩

/-- C10. Pass-through of the decision: for a request that passes the
content-type, decode and kind checks, (1) if the review has a `Request` and the
decision function returns a response `resp`, the function is called exactly
once, on the decoded review, the status is 200, and the envelope marshalled
into the body carries `resp` with only its UID replaced by `Request.UID`;
(2) if the `Request` is nil or the decision is nil, the handler panics after
the one call of the decision function, with nothing written. -/
theorem decision_passes_through (Decode : Decoder) (Marshal : Marshaller)
    (writeErr : Option String) (r : Request)
    (admitFunc : AdmissionReview → Option AdmissionResponse) (ar : AdmissionReview)
    (hct : r.Header.Get "Content-Type" = "application/json")
    (hdec : Decode (readBody r) =
      .ok (.admissionReview ar, SchemeGroupVersion.WithKind "AdmissionReview"))
    (hm : ∀ obj, ∃ bytes, Marshal obj = .ok bytes) :
    (∀ req resp, ar.Request = some req → admitFunc ar = some resp →
      admitCalls (serveAdmissionReview Decode Marshal (newResponseWriter writeErr) r
        admitFunc).trace = [ar] ∧
      marshalCalls (serveAdmissionReview Decode Marshal (newResponseWriter writeErr) r
        admitFunc).trace =
        [{ TypeMeta := { Kind := "AdmissionReview", APIVersion := "admission.k8s.io/v1" }
           Request := none
           Response := some
             { UID := req.UID, Allowed := resp.Allowed, Result := resp.Result,
               Patch := resp.Patch, PatchType := resp.PatchType,
               AuditAnnotations := resp.AuditAnnotations, Warnings := resp.Warnings } }] ∧
      Marshal
        { TypeMeta := { Kind := "AdmissionReview", APIVersion := "admission.k8s.io/v1" }
          Request := none
          Response := some
            { UID := req.UID, Allowed := resp.Allowed, Result := resp.Result,
              Patch := resp.Patch, PatchType := resp.PatchType,
              AuditAnnotations := resp.AuditAnnotations, Warnings := resp.Warnings } } =
        .ok (serveAdmissionReview Decode Marshal (newResponseWriter writeErr) r
          admitFunc).w.body ∧
      (serveAdmissionReview Decode Marshal (newResponseWriter writeErr) r
        admitFunc).w.status = some 200 ∧
      (serveAdmissionReview Decode Marshal (newResponseWriter writeErr) r
        admitFunc).panicked = false) ∧
    ((ar.Request = none ∨ admitFunc ar = none) →
      (serveAdmissionReview Decode Marshal (newResponseWriter writeErr) r
        admitFunc).panicked = true ∧
      admitCalls (serveAdmissionReview Decode Marshal (newResponseWriter writeErr) r
        admitFunc).trace = [ar] ∧
      (serveAdmissionReview Decode Marshal (newResponseWriter writeErr) r admitFunc).w =
        newResponseWriter writeErr) := by
  constructor
  · intro req resp hreq hadm
    obtain ⟨bytes, hb⟩ := hm
      { TypeMeta := { Kind := "AdmissionReview", APIVersion := "admission.k8s.io/v1" }
        Request := none
        Response := some { resp with UID := req.UID } }
    obtain ⟨hw, hp, -, hac, hmc⟩ :=
      serve_review Decode Marshal writeErr r admitFunc ar req resp bytes hct hdec hreq hadm hb
    exact ⟨hac, hmc, by rw [hw]; exact hb, by rw [hw], hp⟩
  · intro hnil
    rw [serve_nil Decode Marshal _ r admitFunc ar hct hdec hnil]
    simp [admitCalls]

/-- The success scenario with a denying decision (200 with `Allowed = false`
and the decision's status untouched), with no decision, and a review without
a request. -/
theorem decision_passes_through_witness :
    (podReviewRequest.Header.Get "Content-Type" = "application/json" ∧
     jsonDecode (readBody podReviewRequest) =
       .ok (.admissionReview podReview, SchemeGroupVersion.WithKind "AdmissionReview")) ∧
    (admitCalls (serveAdmissionReview jsonDecode jsonMarshal (newResponseWriter none)
       podReviewRequest denyAll).trace = [podReview] ∧
     marshalCalls (serveAdmissionReview jsonDecode jsonMarshal (newResponseWriter none)
       podReviewRequest denyAll).trace =
       [{ TypeMeta := { Kind := "AdmissionReview", APIVersion := "admission.k8s.io/v1" }
          Request := none
          Response := some
            { UID := "abc-123", Allowed := false,
              Result := some { Message := "denied", Code := 403 } } }] ∧
     (serveAdmissionReview jsonDecode jsonMarshal (newResponseWriter none)
       podReviewRequest denyAll).w.status = some 200) ∧
    (serveAdmissionReview jsonDecode jsonMarshal (newResponseWriter none)
      podReviewRequest noDecision).panicked = true ∧
    (serveAdmissionReview jsonDecode jsonMarshal (newResponseWriter none)
      emptyReviewRequest allowAll).panicked = true :=
  ⟨⟨by decide, by decide⟩,
   ⟨((decision_passes_through jsonDecode jsonMarshal none podReviewRequest denyAll podReview
       (by decide) (by decide) (fun obj => ⟨obj.encode, rfl⟩)).1
       { UID := "abc-123", Kind := { Group := "", Version := "v1", Kind := "Pod" } }
       { UID := "stale", Result := some { Message := "denied", Code := 403 } } rfl rfl).1,
    ((decision_passes_through jsonDecode jsonMarshal none podReviewRequest denyAll podReview
       (by decide) (by decide) (fun obj => ⟨obj.encode, rfl⟩)).1
       { UID := "abc-123", Kind := { Group := "", Version := "v1", Kind := "Pod" } }
       { UID := "stale", Result := some { Message := "denied", Code := 403 } } rfl rfl).2.1,
    ((decision_passes_through jsonDecode jsonMarshal none podReviewRequest denyAll podReview
       (by decide) (by decide) (fun obj => ⟨obj.encode, rfl⟩)).1
       { UID := "abc-123", Kind := { Group := "", Version := "v1", Kind := "Pod" } }
       { UID := "stale", Result := some { Message := "denied", Code := 403 } }
       rfl rfl).2.2.2.1⟩,
   ((decision_passes_through jsonDecode jsonMarshal none podReviewRequest noDecision podReview
      (by decide) (by decide) (fun obj => ⟨obj.encode, rfl⟩)).2 (Or.inr rfl)).1,
   ((decision_passes_through jsonDecode jsonMarshal none emptyReviewRequest allowAll
      { TypeMeta := { Kind := "AdmissionReview", APIVersion := "admission.k8s.io/v1" } }
      (by decide) (by decide) (fun obj => ⟨obj.encode, rfl⟩)).2 (Or.inl rfl)).1⟩

end Kuberos
